import Mathlib

/-!
Go-Backend: age calculation, validation and user CRUD.

A shallow embedding of the domain logic of the two implementations in the
repository:

* the root implementation (`internal/service`, `internal/handler`), whose
  `calculateAge` compares days of the year, and
* the layered implementation (`user-management/internal/models`), whose
  `User.CalculateAge` compares (month, day) pairs.

Both Go functions read the clock with `time.Now()`; here the current time is an
explicit argument.
-/

namespace GoBackend

/-! ## Calendar dates (the part of Go's `time` package the code relies on) -/

/-- Calendar date as returned by `t.Date()` for a Go `time.Time`: the year, the
month (1 = January) and the day of the month. -/
structure Date where
  year : Int
  month : Nat
  day : Nat
deriving DecidableEq, Repr

/-- Go `time.isLeap`: `year%4 == 0 && (year%100 != 0 || year%400 == 0)`. -/
def isLeap (year : Int) : Bool :=
  year % 4 == 0 && (year % 100 != 0 || year % 400 == 0)

/-- Go `time.daysBefore`: `daysBefore m` is the number of days of a non-leap
year that precede the first day of month `m + 1`. -/
def daysBefore : Nat → Nat
  | 0 => 0
  | 1 => 31
  | 2 => 31 + 28
  | 3 => 31 + 28 + 31
  | 4 => 31 + 28 + 31 + 30
  | 5 => 31 + 28 + 31 + 30 + 31
  | 6 => 31 + 28 + 31 + 30 + 31 + 30
  | 7 => 31 + 28 + 31 + 30 + 31 + 30 + 31
  | 8 => 31 + 28 + 31 + 30 + 31 + 30 + 31 + 31
  | 9 => 31 + 28 + 31 + 30 + 31 + 30 + 31 + 31 + 30
  | 10 => 31 + 28 + 31 + 30 + 31 + 30 + 31 + 31 + 30 + 31
  | 11 => 31 + 28 + 31 + 30 + 31 + 30 + 31 + 31 + 30 + 31 + 30
  | _ => 31 + 28 + 31 + 30 + 31 + 30 + 31 + 31 + 30 + 31 + 30 + 31

/-- Go `time.daysIn`: the number of days of month `m` in `year`. -/
def daysIn (m : Nat) (year : Int) : Nat :=
  if m = 2 ∧ isLeap year = true then 29 else daysBefore m - daysBefore (m - 1)

/-- The dates a `time.Time` can show: a month in 1..12 and a day that exists in
that month of that year. -/
def Date.Valid (d : Date) : Prop :=
  1 ≤ d.month ∧ d.month ≤ 12 ∧ 1 ≤ d.day ∧ d.day ≤ daysIn d.month d.year

instance (d : Date) : Decidable d.Valid := by
  unfold Date.Valid; infer_instance

/-- Go `Time.YearDay`: the day of the year, 1 for January 1, in 1..365 for a
non-leap year and 1..366 for a leap year. -/
def Date.YearDay (d : Date) : Nat :=
  daysBefore (d.month - 1) + (if 2 < d.month ∧ isLeap d.year = true then 1 else 0) + d.day

/-- Chronological order of calendar dates: lexicographic on year, month, day. -/
def Date.le (a b : Date) : Prop :=
  a.year < b.year ∨ (a.year = b.year ∧ (a.month < b.month ∨ (a.month = b.month ∧ a.day ≤ b.day)))

instance : LE Date := ⟨Date.le⟩

instance (a b : Date) : Decidable (a ≤ b) := by
  show Decidable (Date.le a b)
  unfold Date.le; infer_instance

/-- The date is February 29. -/
def Date.isFeb29 (d : Date) : Prop := d.month = 2 ∧ d.day = 29

instance (d : Date) : Decidable d.isFeb29 := by
  unfold Date.isFeb29; infer_instance

/-- The `k`-th anniversary of `d`: same month and day, `k` years later. -/
def Date.anniversary (d : Date) (k : Int) : Date :=
  { year := d.year + k, month := d.month, day := d.day }

/-- The calendar day that follows `d`. -/
def Date.next (d : Date) : Date :=
  if d.day < daysIn d.month d.year then { d with day := d.day + 1 }
  else if d.month < 12 then { year := d.year, month := d.month + 1, day := 1 }
  else { year := d.year + 1, month := 1, day := 1 }

/-! ## Instants -/

/-- Days from 0001-01-01 to January 1 of `year` in the proleptic Gregorian
calendar (the calendar of Go's `time` package). -/
def daysBeforeYear (year : Int) : Int :=
  365 * (year - 1) + (year - 1) / 4 - (year - 1) / 100 + (year - 1) / 400

/-- Day number of a date on the time line, 0 for 0001-01-01. -/
def Date.dayNumber (d : Date) : Int :=
  daysBeforeYear d.year + (d.YearDay : Int) - 1

/-- Nanoseconds in a day. -/
def nsPerDay : Int := 86400 * 1000000000

/-- Go `time.Time`: the clock reading in the location the value carries, that
is the calendar date (`t.Date()`) and the nanoseconds elapsed since midnight
there, together with the zone offset of that location in seconds east of UTC.
`time.Now()` carries the server's location, a parsed time the offset that was
written in it. -/
structure Time where
  date : Date
  nsec : Nat
  offset : Int
deriving DecidableEq, Repr

/-- The largest zone offset, in seconds either side of UTC, that a time can
carry: 24 h 60 min 60 s, the limit `time.Parse` puts on a written offset. -/
def maxZoneOffset : Int := 90060

/-- The times a `time.Time` can show: a valid date, a time of day and a zone
offset within `maxZoneOffset`. -/
def Time.Valid (t : Time) : Prop :=
  t.date.Valid ∧ (t.nsec : Int) < nsPerDay ∧
    -maxZoneOffset ≤ t.offset ∧ t.offset ≤ maxZoneOffset

instance (t : Time) : Decidable t.Valid := by
  unfold Time.Valid; infer_instance

/-- The instant of a time, in nanoseconds since 0001-01-01 00:00 UTC: the clock
reading less the zone offset. -/
def Time.abs (t : Time) : Int :=
  t.date.dayNumber * nsPerDay + t.nsec - t.offset * 1000000000

/-- Go `Time.After`: `t` is an instant after `u`. -/
def Time.After (t u : Time) : Bool :=
  decide (u.abs < t.abs)

/-- Go `time.Duration` bounds: an int64 count of nanoseconds. -/
def maxDuration : Int := 2 ^ 63 - 1

/-- Go `time.Duration` lower bound. -/
def minDuration : Int := -(2 ^ 63)

/-- Go `Time.Sub`: the duration `t - u` in nanoseconds, saturated to the int64
range of `time.Duration`. -/
def Time.Sub (t u : Time) : Int :=
  let d := t.abs - u.abs
  if d < minDuration then minDuration
  else if maxDuration < d then maxDuration
  else d

/-- Go `time.Since(t)`, with `time.Now()` passed in: `now.Sub(t)`. -/
def Since (now t : Time) : Int :=
  now.Sub t

/-- Go `Duration.Hours`, in exact arithmetic: nanoseconds divided by the
nanoseconds of one hour. -/
def Hours (d : Int) : ℚ :=
  (d : ℚ) / (60 * 60 * 1000000000)

/-! ## The layout `2006-01-02` -/

/-- Go `time.isDigit` on one character: `'0' <= c && c <= '9'`. -/
def isDigit (c : Char) : Bool :=
  decide ('0'.toNat ≤ c.toNat) && decide (c.toNat ≤ '9'.toNat)

/-- Value of a decimal digit character, `c - '0'`. -/
def digitVal (c : Char) : Nat :=
  c.toNat - '0'.toNat

/-- Go `time.Parse("2006-01-02", s)`, returning the calendar date of the result
(the time of day is midnight): a four-digit year, `-`, a two-digit month, `-`,
a two-digit day and nothing else; the month must be in 1..12 and the day must
exist in that month (`day out of range` otherwise). `none` is a parse error. -/
def Parse (s : String) : Option Date :=
  match s.data with
  | [y1, y2, y3, y4, s1, m1, m2, s2, d1, d2] =>
    if isDigit y1 && isDigit y2 && isDigit y3 && isDigit y4 && s1 == '-'
        && isDigit m1 && isDigit m2 && s2 == '-' && isDigit d1 && isDigit d2 then
      let year : Nat := digitVal y1 * 1000 + digitVal y2 * 100 + digitVal y3 * 10 + digitVal y4
      let month : Nat := digitVal m1 * 10 + digitVal m2
      let day : Nat := digitVal d1 * 10 + digitVal d2
      if month = 0 ∨ 12 < month then none
      else if day < 1 ∨ daysIn month year < day then none
      else some { year := year, month := month, day := day }
    else none
  | _ => none

/-- The character of a decimal digit, `'0' + n`. -/
def digitChar (n : Nat) : Char :=
  Char.ofNat ('0'.toNat + n)

/-- Decimal digits of `u`, most significant first (the digit loop of Go
`time.appendInt`, which fills a 20-byte buffer from the right). -/
def utoa : Nat → Nat → List Char
  | 0, _ => []
  | fuel + 1, u => if u < 10 then [digitChar u] else utoa fuel (u / 10) ++ [digitChar (u % 10)]

/-- Go `time.appendInt`: the decimal form of `x`, with a leading `-` when
negative, left-padded with zeros to `width` digits. -/
def appendInt (x : Int) (width : Nat) : List Char :=
  let ds := utoa 20 x.natAbs
  (if x < 0 then ['-'] else []) ++ List.replicate (width - ds.length) '0' ++ ds

/-- Go `t.Format("2006-01-02")` on the calendar date of `t`: the year padded to
four digits, the month and the day padded to two. -/
def Date.Format (d : Date) : String :=
  ⟨appendInt d.year 4 ++ ['-'] ++ appendInt d.month 2 ++ ['-'] ++ appendInt d.day 2⟩

/-! ## Age calculators -/

/-- Root `service.calculateAge` (internal/service/user_service.go), with
`time.Now()` passed in as `now`:
`years := now.Year() - dob.Year(); if now.YearDay() < dob.YearDay() { years-- }`. -/
def calculateAge (dob now : Date) : Int :=
  let years := now.year - dob.year
  if now.YearDay < dob.YearDay then years - 1 else years

/-- Layered `User.CalculateAge` (user-management/internal/models/user.go), with
`time.Now()` passed in as `now` and `u.DOB` as `dob`:
`age := year - dobYear; if month < dobMonth || (month == dobMonth && day < dobDay) { age-- }`. -/
def User.CalculateAge (dob now : Date) : Int :=
  let age := now.year - dob.year
  if now.month < dob.month ∨ (now.month = dob.month ∧ now.day < dob.day) then age - 1 else age

/-- Layered `validateDOB` (user-management/internal/models/user.go), with
`time.Now()` passed in as `now`:
`if dob.After(time.Now()) { return false }`, then
`age := time.Since(dob).Hours() / (24 * 365); return age <= 150`,
the division and comparison taken in exact arithmetic. -/
def validateDOB (dob now : Time) : Bool :=
  if dob.After now then false
  else
    let age : ℚ := Hours (Since now dob) / (24 * 365)
    decide (age ≤ 150)

/-! ## Root implementation: models, repository, service, handler -/

namespace Root

/-- Go `int32(x)` for an `int` (64-bit) value: the low 32 bits, read as signed. -/
def toInt32 (x : Int) : Int :=
  (x + 2147483648) % 4294967296 - 2147483648

/-- Errors the root stack passes around: a `time.Parse` failure,
`sql.ErrNoRows`, the repository's `user with ID %d not found` and
`error fetching user: %v`, and any other database error. -/
inductive Error where
  | parse
  | noRows
  | notFound (id : Int)
  | fetch
  | db
deriving DecidableEq, Repr

deriving instance DecidableEq for Except

/-- Root `models.User`. -/
structure User where
  ID : Int
  Name : String
  DOB : Date
deriving DecidableEq, Repr

/-- Root `models.UserResponse`; `Age` is the `*int` field, `none` for `nil`. -/
structure UserResponse where
  ID : Int
  Name : String
  DOB : String
  Age : Option Int
deriving DecidableEq, Repr

/-- Root `models.CreateUserRequest`. -/
structure CreateUserRequest where
  Name : String
  DOB : String
deriving DecidableEq, Repr

/-- Root `models.UpdateUserRequest`. -/
structure UpdateUserRequest where
  Name : String
  DOB : String
deriving DecidableEq, Repr

/-- The database access of the root repository, taken as a parameter over a
store state `σ` (package `db/sqlc` and the database itself are outside the
source tree): `CreateUser` is `queries.CreateUser` followed by
`result.LastInsertId()`, `GetUserByID` is the generated query, `QueryRow` is
the direct `SELECT ... WHERE id = ?` and `ExecUpdate name dob id` is
`UPDATE users SET name = ?, dob = ?, updated_at = NOW() WHERE id = ?`. -/
structure Queries (σ : Type) where
  CreateUser : σ → String → Date → Except Error Int × σ
  GetUserByID : σ → Int → Except Error User
  QueryRow : σ → Int → Except Error User
  ExecUpdate : σ → String → Date → Int → Except Error Unit × σ

/-- Root `UserRepository.Create`. -/
def UserRepository.Create {σ : Type} (q : Queries σ) (st : σ) (name : String) (dob : Date) :
    Except Error Int × σ :=
  match q.CreateUser st name dob with
  | (.error err, st1) => (.error err, st1)
  | (.ok id, st1) => (.ok id, st1)

/-- Root `UserRepository.GetByID`: the generated query on `int32(id)` first; if
that fails, the direct query, whose `sql.ErrNoRows` becomes `not found` and
whose other errors become `error fetching user`. -/
def UserRepository.GetByID {σ : Type} (q : Queries σ) (st : σ) (id : Int) : Except Error User :=
  match q.GetUserByID st (toInt32 id) with
  | .error _ =>
    match q.QueryRow st id with
    | .error err => if err = Error.noRows then .error (Error.notFound id) else .error Error.fetch
    | .ok dbUser => .ok { ID := dbUser.ID, Name := dbUser.Name, DOB := dbUser.DOB }
  | .ok user => .ok { ID := user.ID, Name := user.Name, DOB := user.DOB }

/-- Root `UserRepository.Update`: verify that the user exists with the generated
query on `int32(id)`, then run the `UPDATE` with `id`. -/
def UserRepository.Update {σ : Type} (q : Queries σ) (st : σ) (id : Int) (name : String)
    (dob : Date) : Except Error Unit × σ :=
  match q.GetUserByID st (toInt32 id) with
  | .error err => (.error err, st)
  | .ok _ =>
    match q.ExecUpdate st name dob id with
    | (.error err, st1) => (.error err, st1)
    | (.ok _, st1) => (.ok (), st1)

/-- Root `UserService.CreateUser`, with `time.Now()` passed in as `now`. -/
def UserService.CreateUser {σ : Type} (q : Queries σ) (now : Date) (st : σ)
    (req : CreateUserRequest) : Except Error UserResponse × σ :=
  match Parse req.DOB with
  | none => (.error Error.parse, st)
  | some dob =>
    match UserRepository.Create q st req.Name dob with
    | (.error err, st1) => (.error err, st1)
    | (.ok id, st1) =>
      let age := calculateAge dob now
      (.ok { ID := id, Name := req.Name, DOB := dob.Format, Age := some age }, st1)

/-- Root `UserService.UpdateUser`, with `time.Now()` passed in as `now`. -/
def UserService.UpdateUser {σ : Type} (q : Queries σ) (now : Date) (st : σ) (id : Int)
    (req : UpdateUserRequest) : Except Error UserResponse × σ :=
  match UserRepository.GetByID q st id with
  | .error err => (.error err, st)
  | .ok existingUser =>
    let name := if req.Name ≠ "" then req.Name else existingUser.Name
    let parsed : Option Date := if req.DOB ≠ "" then Parse req.DOB else some existingUser.DOB
    match parsed with
    | none => (.error Error.parse, st)
    | some dob =>
      match UserRepository.Update q st id name dob with
      | (.error err, st1) => (.error err, st1)
      | (.ok _, st1) =>
        match UserRepository.GetByID q st1 id with
        | .error err => (.error err, st1)
        | .ok updatedUser =>
          let age := calculateAge updatedUser.DOB now
          (.ok { ID := updatedUser.ID, Name := updatedUser.Name,
                 DOB := updatedUser.DOB.Format, Age := some age }, st1)

/-- The struct tags of root `CreateUserRequest` as `validate.Struct` checks
them: `Name` is `required,min=1,max=255` (non-empty, 1 to 255 characters) and
`DOB` is `required` (non-empty). -/
def CreateUserRequest.validate (req : CreateUserRequest) : Bool :=
  decide (req.Name ≠ "") && decide (1 ≤ req.Name.length) && decide (req.Name.length ≤ 255)
    && decide (req.DOB ≠ "")

/-- Root `UserHandler.CreateUser` as a function from the parsed body (`none`
when `c.BodyParser` fails) to the HTTP status and the JSON user of a 201
response. -/
def UserHandler.CreateUser {σ : Type} (q : Queries σ) (now : Date) (st : σ)
    (body : Option CreateUserRequest) : (Nat × Option UserResponse) × σ :=
  match body with
  | none => ((400, none), st)
  | some req =>
    if req.validate = false then ((400, none), st)
    else
      match Parse req.DOB with
      | none => ((400, none), st)
      | some _ =>
        match UserService.CreateUser q now st req with
        | (.error _, st1) => ((500, none), st1)
        | (.ok user, st1) => ((201, some user), st1)

/-- Modelled from the spec: the persistence gateway of section 6 as a map from
id to (name, date of birth), standing for the `users` table that the absent
`db/sqlc` package queries; `lastID` is the last auto-generated id. -/
structure Store where
  rows : Int → Option (String × Date)
  lastID : Int

/-- Modelled from the spec: the persistence gateway of section 6 over `Store`.
`insert` assigns the next id, `findById` returns the row or `sql.ErrNoRows`,
and the `UPDATE ... WHERE id = ?` replaces the row with that id when there is
one and changes nothing otherwise. -/
def Store.queries : Queries Store where
  CreateUser := fun st name dob =>
    let id := st.lastID + 1
    (.ok id, { rows := fun j => if j = id then some (name, dob) else st.rows j, lastID := id })
  GetUserByID := fun st id =>
    match st.rows id with
    | none => .error Error.noRows
    | some (name, dob) => .ok { ID := id, Name := name, DOB := dob }
  QueryRow := fun st id =>
    match st.rows id with
    | none => .error Error.noRows
    | some (name, dob) => .ok { ID := id, Name := name, DOB := dob }
  ExecUpdate := fun st name dob id =>
    match st.rows id with
    | none => (.ok (), st)
    | some _ =>
      (.ok (), { rows := fun j => if j = id then some (name, dob) else st.rows j,
                 lastID := st.lastID })

/-- The empty `users` table. -/
def Store.empty : Store :=
  { rows := fun _ => none, lastID := 0 }

end Root

/-! ## Go integer arithmetic -/

/-- Go `int64(x)`, also the result of an `int` or `int64` operation whose
mathematical value is `x`: the low 64 bits, read as signed (`int` is taken to
be 64 bits wide). -/
def toInt64 (x : Int) : Int :=
  (x + 9223372036854775808) % 18446744073709551616 - 9223372036854775808

/-- Go integer division `a / b` for `b ≠ 0`: the quotient truncated toward
zero. -/
def goDiv (a b : Int) : Int :=
  a.tdiv b

/-! ## Root implementation: pagination -/

namespace Root

/-- Root `models.PaginatedResponse`. -/
structure PaginatedResponse where
  Data : List UserResponse
  Page : Int
  Limit : Int
  Total : Int
  TotalPages : Int
deriving DecidableEq, Repr

/-- Root `models.PaginationParams`. -/
structure PaginationParams where
  Page : Int
  Limit : Int
deriving DecidableEq, Repr

/-- The paginated queries of the root repository, taken as a parameter like
`Queries`: `GetUsersPaginated limit offset` is the generated query with its
`int32` parameters and `CountUsers` is the row count as an `int64`. -/
structure PageQueries (σ : Type) where
  GetUsersPaginated : σ → Int → Int → Except Error (List User)
  CountUsers : σ → Except Error Int

/-- Root `UserRepository.GetPaginated`: the generated query on `int32(limit)`
and `int32(offset)`. -/
def UserRepository.GetPaginated {σ : Type} (pq : PageQueries σ) (st : σ) (limit offset : Int) :
    Except Error (List User) :=
  match pq.GetUsersPaginated st (toInt32 limit) (toInt32 offset) with
  | .error err => .error err
  | .ok users => .ok (users.map fun u => { ID := u.ID, Name := u.Name, DOB := u.DOB })

/-- Root `UserRepository.Count`. -/
def UserRepository.Count {σ : Type} (pq : PageQueries σ) (st : σ) : Except Error Int :=
  match pq.CountUsers st with
  | .error err => .error err
  | .ok count => .ok count

/-- Root `UserService.GetUsersPaginated`, with `time.Now()` passed in as `now`.
`none` is the run-time panic of the integer division by zero in
`(int(total) + limit - 1) / limit`. -/
def UserService.GetUsersPaginated {σ : Type} (pq : PageQueries σ) (now : Date) (st : σ)
    (page limit : Int) : Option (Except Error PaginatedResponse) :=
  let offset := toInt64 (toInt64 (page - 1) * limit)
  match UserRepository.GetPaginated pq st limit offset with
  | .error err => some (.error err)
  | .ok users =>
    match UserRepository.Count pq st with
    | .error err => some (.error err)
    | .ok total =>
      let response : List UserResponse := users.map fun u =>
        { ID := u.ID, Name := u.Name, DOB := u.DOB.Format,
          Age := some (calculateAge u.DOB now) }
      if limit = 0 then none
      else
        some (.ok { Data := response, Total := total, Page := page, Limit := limit,
                    TotalPages := goDiv (toInt64 (toInt64 (toInt64 total + limit) - 1)) limit })

end Root

/-! ## Layered implementation: models, repository, service, handler -/

namespace Layered

open Root (toInt32)

/-- Errors the layered stack passes around: `service.ErrUserNotFound`,
`sql.ErrNoRows`, the `validator.ValidationErrors` of `User.Validate`, and any
other database error. -/
inductive Error where
  | userNotFound
  | noRows
  | validation
  | db
deriving DecidableEq, Repr

/-- Layered `models.User`. -/
structure User where
  ID : Int
  Name : String
  DOB : Time
  Age : Int
  CreatedAt : Time
  UpdatedAt : Time
deriving DecidableEq, Repr

/-- Layered `models.CreateUserRequest`. -/
structure CreateUserRequest where
  Name : String
  DOB : Time
deriving DecidableEq, Repr

/-- Layered `models.UpdateUserRequest`. -/
structure UpdateUserRequest where
  Name : String
  DOB : Time
deriving DecidableEq, Repr

/-- Layered `models.UserResponse`. -/
structure UserResponse where
  ID : Int
  Name : String
  DOB : String
  Age : Int
deriving DecidableEq, Repr

/-- The zero `time.Time`, January 1 of year 1 at midnight UTC, which the
`required` tag rejects. -/
def zeroTime : Time :=
  { date := { year := 1, month := 1, day := 1 }, nsec := 0, offset := 0 }

/-- Layered `User.ToResponse`, with `time.Now()` passed in as `now`. -/
def User.ToResponse (u : User) (now : Time) : UserResponse :=
  { ID := u.ID, Name := u.Name, DOB := u.DOB.date.Format,
    Age := GoBackend.User.CalculateAge u.DOB.date now.date }

/-- Layered `User.Validate`, with `time.Now()` passed in as `now`:
`validate.Struct(u)` with the tags of `User` read directly. `Name` is
`required,min=2,max=100` (non-empty, 2 to 100 characters, counted as they are,
without trimming) and `DOB` is `required,validateDOB` (not the zero time, and
accepted by `validateDOB`). -/
def User.Validate (u : User) (now : Time) : Except Error Unit :=
  if u.Name ≠ "" ∧ 2 ≤ u.Name.length ∧ u.Name.length ≤ 100
      ∧ u.DOB ≠ zeroTime ∧ validateDOB u.DOB now = true then .ok ()
  else .error Error.validation

/-- The specification's trimmed name (section 4.2, "after trimming"): the name
without its leading and trailing whitespace. The source has no such step; the
definition is here to state the rule of the specification next to the code's. -/
def specTrimmedName (name : String) : String :=
  ⟨((name.data.dropWhile Char.isWhitespace).reverse.dropWhile Char.isWhitespace).reverse⟩

/-- The generated queries the layered repository calls, taken as a parameter
over a store state `σ` (package `db/sqlc` is outside the source tree):
`CreateUser name dob`, `GetUser id`, `UpdateUser id name dob`, `DeleteUser id`
and `ListUsers limit offset`. The rows come back as users with `Age` unset. -/
structure Queries (σ : Type) where
  CreateUser : σ → String → Time → Except Error User × σ
  GetUser : σ → Int → Except Error User
  UpdateUser : σ → Int → String → Time → Except Error User × σ
  DeleteUser : σ → Int → Except Error Unit × σ
  ListUsers : σ → Int → Int → Except Error (List User)

/-- Layered `repository.UserRepository`, the interface the service depends on.
`GetUserByID` returning `.ok none` is the Go result `(nil, nil)`. -/
structure UserRepository (σ : Type) where
  CreateUser : σ → User → Except Error User × σ
  GetUserByID : σ → Int → Except Error (Option User)
  UpdateUser : σ → User → Except Error User × σ
  DeleteUser : σ → Int → Except Error Unit × σ
  ListUsers : σ → Int → Int → Except Error (List User)

/-- The user built from a database row: `ID`, `Name`, `DOB`, `CreatedAt` and
`UpdatedAt` are copied, `Age` is left at its zero value. -/
def fromRow (dbUser : User) : User :=
  { ID := dbUser.ID, Name := dbUser.Name, DOB := dbUser.DOB, Age := 0,
    CreatedAt := dbUser.CreatedAt, UpdatedAt := dbUser.UpdatedAt }

/-- Layered `userRepository`, the implementation of `UserRepository` over the
generated queries; `GetUserByID` turns `sql.ErrNoRows` into `(nil, nil)`. -/
def userRepository {σ : Type} (q : Queries σ) : UserRepository σ where
  CreateUser := fun st user =>
    match q.CreateUser st user.Name user.DOB with
    | (.error err, st1) => (.error err, st1)
    | (.ok dbUser, st1) => (.ok (fromRow dbUser), st1)
  GetUserByID := fun st id =>
    match q.GetUser st id with
    | .error err => if err = Error.noRows then .ok none else .error err
    | .ok dbUser => .ok (some (fromRow dbUser))
  UpdateUser := fun st user =>
    match q.UpdateUser st user.ID user.Name user.DOB with
    | (.error err, st1) => (.error err, st1)
    | (.ok dbUser, st1) => (.ok (fromRow dbUser), st1)
  DeleteUser := fun st id => q.DeleteUser st id
  ListUsers := fun st limit offset =>
    match q.ListUsers st limit offset with
    | .error err => .error err
    | .ok dbUsers => .ok (dbUsers.map fromRow)

/-- Layered `service.Pagination`. -/
structure Pagination where
  Page : Int
  PageSize : Int
  TotalCount : Int
  TotalPages : Int
deriving DecidableEq, Repr

/-- Layered `userService.CreateUser`, with `time.Now()` passed in as `now`. -/
def userService.CreateUser {σ : Type} (repo : UserRepository σ) (now : Time) (st : σ)
    (req : CreateUserRequest) : Except Error User × σ :=
  let user : User :=
    { ID := 0, Name := req.Name, DOB := req.DOB, Age := 0,
      CreatedAt := zeroTime, UpdatedAt := zeroTime }
  match user.Validate now with
  | .error err => (.error err, st)
  | .ok _ => repo.CreateUser st user

/-- Layered `userService.GetUserByID`. -/
def userService.GetUserByID {σ : Type} (repo : UserRepository σ) (st : σ) (id : Int) :
    Except Error User :=
  if id ≤ 0 then .error Error.userNotFound
  else
    match repo.GetUserByID st id with
    | .error err => .error err
    | .ok none => .error Error.userNotFound
    | .ok (some user) => .ok user

/-- Layered `userService.UpdateUser`, with `time.Now()` passed in as `now`. -/
def userService.UpdateUser {σ : Type} (repo : UserRepository σ) (now : Time) (st : σ)
    (id : Int) (req : UpdateUserRequest) : Except Error User × σ :=
  if id ≤ 0 then (.error Error.userNotFound, st)
  else
    match repo.GetUserByID st id with
    | .error err => (.error err, st)
    | .ok none => (.error Error.userNotFound, st)
    | .ok (some _) =>
      let user : User :=
        { ID := id, Name := req.Name, DOB := req.DOB, Age := 0,
          CreatedAt := zeroTime, UpdatedAt := zeroTime }
      match user.Validate now with
      | .error err => (.error err, st)
      | .ok _ => repo.UpdateUser st user

/-- Layered `userService.DeleteUser`. -/
def userService.DeleteUser {σ : Type} (repo : UserRepository σ) (st : σ) (id : Int) :
    Except Error Unit × σ :=
  if id ≤ 0 then (.error Error.userNotFound, st)
  else
    match repo.GetUserByID st id with
    | .error err => (.error err, st)
    | .ok none => (.error Error.userNotFound, st)
    | .ok (some _) => repo.DeleteUser st id

/-- The page number `userService.ListUsers` works with: `page`, or 1 when
`page < 1`. -/
def normPage (page : Int) : Int :=
  if page < 1 then 1 else page

/-- The page size `userService.ListUsers` works with, the `switch` of the
source: 100 when `pageSize > 100`, 10 when `pageSize <= 0`, `pageSize`
otherwise. -/
def normPageSize (pageSize : Int) : Int :=
  if pageSize > 100 then 100
  else if pageSize ≤ 0 then 10
  else pageSize

/-- The offset `userService.ListUsers` passes to the repository:
`(page - 1) * pageSize` on the normalised values, in `int32` arithmetic. -/
def listOffset (page pageSize : Int) : Int :=
  toInt32 (toInt32 (normPage page - 1) * normPageSize pageSize)

/-- Layered `userService.ListUsers` on `int32` arguments `page` and `pageSize`;
the total count is the length of the returned page, as in the source. -/
def userService.ListUsers {σ : Type} (repo : UserRepository σ) (st : σ) (page pageSize : Int) :
    Except Error (List User × Pagination) :=
  let page := normPage page
  let pageSize := normPageSize pageSize
  let offset := toInt32 (toInt32 (page - 1) * pageSize)
  match repo.ListUsers st pageSize offset with
  | .error err => .error err
  | .ok users =>
    let totalCount : Int := toInt64 (users.length : Int)
    let totalPages := goDiv (toInt64 (toInt64 (totalCount + toInt64 pageSize) - 1))
      (toInt64 pageSize)
    .ok (users, { Page := page, PageSize := pageSize, TotalCount := totalCount,
                  TotalPages := toInt32 totalPages })

/-- Layered `UserHandler.CreateUser` as a function from the parsed body (`none`
when `c.BodyParser` fails) to the HTTP status and the JSON body of a 201
response. -/
def UserHandler.CreateUser {σ : Type} (repo : UserRepository σ) (now : Time) (st : σ)
    (body : Option CreateUserRequest) : (Nat × Option UserResponse) × σ :=
  match body with
  | none => ((400, none), st)
  | some req =>
    match userService.CreateUser repo now st req with
    | (.error _, st1) => ((500, none), st1)
    | (.ok user, st1) => ((201, some (user.ToResponse now)), st1)

/-- Layered `UserHandler.UpdateUser` as a function from the parsed `id`
parameter (`none` when `strconv.ParseInt` fails) and the parsed body (`none`
when `c.BodyParser` fails) to the HTTP status and the JSON body of a 200
response. -/
def UserHandler.UpdateUser {σ : Type} (repo : UserRepository σ) (now : Time) (st : σ)
    (idParam : Option Int) (body : Option UpdateUserRequest) :
    (Nat × Option UserResponse) × σ :=
  match idParam with
  | none => ((400, none), st)
  | some id =>
    if id ≤ 0 then ((400, none), st)
    else
      match body with
      | none => ((400, none), st)
      | some req =>
        match userService.UpdateUser repo now st id req with
        | (.error err, st1) =>
          if err = Error.userNotFound then ((404, none), st1) else ((500, none), st1)
        | (.ok user, st1) => ((200, some (user.ToResponse now)), st1)

/-- Modelled from the spec: the persistence gateway of section 6 for the
layered stack, standing for the `users` table that the absent `db/sqlc` package
queries: the rows in id order, a map from id to user; `lastID` is the last
generated id and `clock` the time the database stamps rows with. -/
structure Store where
  rows : List User
  lastID : Int
  clock : Time
deriving DecidableEq, Repr

/-- The row of the store with the given id, if any. -/
def Store.find (st : Store) (id : Int) : Option User :=
  st.rows.find? fun u => decide (u.ID = id)

/-- Modelled from the spec: the persistence gateway of section 6 over `Store`.
`insert` appends a row with the next id, `findById` returns the row or
`sql.ErrNoRows`, `update` replaces name and date of birth of the row with that
id or reports `sql.ErrNoRows`, `delete` removes the row, and `listPage`
returns `limit` rows after skipping `offset`, an error for a negative `limit`
or `offset`. -/
def Store.queries : Queries Store where
  CreateUser := fun st name dob =>
    let row : User :=
      { ID := st.lastID + 1, Name := name, DOB := dob, Age := 0,
        CreatedAt := st.clock, UpdatedAt := st.clock }
    (.ok row, { st with rows := st.rows ++ [row], lastID := st.lastID + 1 })
  GetUser := fun st id =>
    match st.find id with
    | none => .error Error.noRows
    | some row => .ok row
  UpdateUser := fun st id name dob =>
    match st.find id with
    | none => (.error Error.noRows, st)
    | some row =>
      (.ok { row with Name := name, DOB := dob, UpdatedAt := st.clock },
        { st with rows := st.rows.map fun u =>
            if u.ID = id then { u with Name := name, DOB := dob, UpdatedAt := st.clock }
            else u })
  DeleteUser := fun st id =>
    (.ok (), { st with rows := st.rows.filter fun u => decide (u.ID ≠ id) })
  ListUsers := fun st limit offset =>
    if limit < 0 ∨ offset < 0 then .error Error.db
    else .ok ((st.rows.drop offset.toNat).take limit.toNat)

/-- A store holding `n` users, with ids 1 to `n`, named `user` and born on
1990-05-10, stamped at noon of 2024-05-09, all times in UTC. -/
def Store.filled (n : Nat) : Store :=
  { rows := (List.range n).map fun i =>
      { ID := (i : Int) + 1, Name := "user", DOB := ⟨⟨1990, 5, 10⟩, 0, 0⟩, Age := 0,
        CreatedAt := ⟨⟨2024, 5, 9⟩, 43200000000000, 0⟩,
        UpdatedAt := ⟨⟨2024, 5, 9⟩, 43200000000000, 0⟩ },
    lastID := n,
    clock := ⟨⟨2024, 5, 9⟩, 43200000000000, 0⟩ }

end Layered

/-! ## Root implementation: the paginated listing handler -/

namespace Root

/-- The struct tags of root `PaginationParams` as `validate.Struct` checks
them: `Page` is `min=1` and `Limit` is `min=1,max=100`. -/
def PaginationParams.validate (params : PaginationParams) : Bool :=
  decide (1 ≤ params.Page) && decide (1 ≤ params.Limit) && decide (params.Limit ≤ 100)

/-- The offset root `UserService.GetUsersPaginated` computes,
`offset := (page - 1) * limit`, in `int` arithmetic. -/
def UserService.paginatedOffset (page limit : Int) : Int :=
  toInt64 (toInt64 (page - 1) * limit)

/-- Root `UserHandler.GetUsersPaginated` as a function from the parsed query
(`none` when `c.QueryParser` fails) to the HTTP status and the JSON body of a
200 response, with `time.Now()` passed in as `now`. The outer `none` is the
run-time panic of the service's division by zero. -/
def UserHandler.GetUsersPaginated {σ : Type} (pq : PageQueries σ) (now : Date) (st : σ)
    (query : Option PaginationParams) : Option (Nat × Option PaginatedResponse) :=
  match query with
  | none => some (400, none)
  | some params =>
    if params.validate = false then some (400, none)
    else
      match UserService.GetUsersPaginated pq now st params.Page params.Limit with
      | none => none
      | some (.error _) => some (500, none)
      | some (.ok result) => some (200, some result)

end Root

/-! ## Calendar lemmas -/

theorem Date.le_iff (a b : Date) :
    a ≤ b ↔ a.year < b.year ∨
      (a.year = b.year ∧ (a.month < b.month ∨ (a.month = b.month ∧ a.day ≤ b.day))) :=
  Iff.rfl

/-- Month table: in a year of leap status `l`, the last day of month `ma` comes
before the first day of every later month `mb`. -/
theorem month_end_le_month_start (l : Bool) (ma mb : Fin 13) (h1 : 1 ≤ ma.val)
    (h2 : ma.val < mb.val) :
    daysBefore (ma.val - 1) + (if 2 < ma.val ∧ l = true then 1 else 0)
        + (if ma.val = 2 ∧ l = true then 29 else daysBefore ma.val - daysBefore (ma.val - 1))
      ≤ daysBefore (mb.val - 1) + (if 2 < mb.val ∧ l = true then 1 else 0) := by
  revert ma mb
  cases l <;> decide

/-- For valid dates in years of the same leap status, comparing days of the
year is the same as comparing (month, day) pairs. -/
theorem YearDay_lt_iff_of_isLeap_eq (a b : Date) (ha : a.Valid) (hb : b.Valid)
    (hl : isLeap a.year = isLeap b.year) :
    a.YearDay < b.YearDay ↔ a.month < b.month ∨ (a.month = b.month ∧ a.day < b.day) := by
  obtain ⟨ya, ma, da⟩ := a
  obtain ⟨yb, mb, db⟩ := b
  simp only [Date.Valid, daysIn] at ha hb
  simp only [Date.YearDay]
  obtain ⟨ha1, ha2, ha3, ha4⟩ := ha
  obtain ⟨hb1, hb2, hb3, hb4⟩ := hb
  simp only at hl
  rw [← hl] at hb4 ⊢
  rcases Nat.lt_trichotomy ma mb with h | h | h
  · have := month_end_le_month_start (isLeap ya) ⟨ma, by omega⟩ ⟨mb, by omega⟩ ha1 h
    simp only at this
    omega
  · subst h
    omega
  · have := month_end_le_month_start (isLeap ya) ⟨mb, by omega⟩ ⟨ma, by omega⟩ hb1 h
    simp only at this
    omega

/-- Within one year the day of the year is monotone in the date. -/
theorem YearDay_le_of_le (a b : Date) (ha : a.Valid) (hb : b.Valid)
    (hy : a.year = b.year) (hab : a ≤ b) : a.YearDay ≤ b.YearDay := by
  have h := YearDay_lt_iff_of_isLeap_eq b a hb ha (by rw [hy])
  rw [Date.le_iff] at hab
  by_contra hlt
  have h1 := h.mp (by omega)
  omega

/-- The day-of-year calculator is non-negative on or after the date of birth. -/
theorem calculateAge_nonneg_of_le (d r : Date) (hd : d.Valid) (hr : r.Valid) (hdr : d ≤ r) :
    0 ≤ calculateAge d r := by
  have hA : d.year = r.year → d.YearDay ≤ r.YearDay :=
    fun hy => YearDay_le_of_le d r hd hr hy hdr
  simp only [Date.le_iff] at hdr
  simp only [calculateAge]
  split <;> omega

/-! ## Claims about the age calculators -/

/-- C1: birthday boundary of the root `calculateAge`. At the specification's own
scenario the code departs from the claim: for the date of birth 1990-05-10 the
day before the 34th anniversary is 2024-05-09, and the code already returns 34
there instead of 33 (2024 is a leap year, so May 9 is day 130 of the year, the
same ordinal as May 10 in 1990); on the anniversary it returns 34. -/
theorem calculateAge_day_before_anniversary_1990_05_10 :
    (⟨1990, 5, 10⟩ : Date).Valid ∧ ¬ (⟨1990, 5, 10⟩ : Date).isFeb29 ∧
    (⟨2024, 5, 9⟩ : Date).next = (⟨1990, 5, 10⟩ : Date).anniversary 34 ∧
    calculateAge ⟨1990, 5, 10⟩ ⟨2024, 5, 9⟩ = 34 ∧
    calculateAge ⟨1990, 5, 10⟩ ((⟨1990, 5, 10⟩ : Date).anniversary 34) = 34 := by
  decide

/-- C2: root `calculateAge` one calendar year after the date of birth. For the
date of birth 2024-05-10 (not Feb 29) the code returns 0 on 2025-05-10, not 1:
May 10 is day 131 of the leap year 2024 and day 130 of 2025. -/
theorem calculateAge_one_year_after_2024_05_10 :
    (⟨2024, 5, 10⟩ : Date).Valid ∧ ¬ (⟨2024, 5, 10⟩ : Date).isFeb29 ∧
    ((⟨2024, 5, 10⟩ : Date).anniversary 1).Valid ∧
    calculateAge ⟨2024, 5, 10⟩ ((⟨2024, 5, 10⟩ : Date).anniversary 1) = 0 := by
  decide

/-- Every anniversary of a valid date other than Feb 29 is a valid date. -/
theorem Date.anniversary_valid (d : Date) (hd : d.Valid) (hfeb : ¬ d.isFeb29) (k : Int) :
    (d.anniversary k).Valid := by
  obtain ⟨y, m, dd⟩ := d
  simp only [Date.Valid, Date.isFeb29, Date.anniversary, daysIn] at *
  obtain ⟨h1, h2, h3, h4⟩ := hd
  refine ⟨h1, h2, h3, ?_⟩
  by_cases hm : m = 2
  · subst hm
    simp only [daysBefore, true_and] at h4 hfeb ⊢
    split at h4 <;> split <;> omega
  · simpa [hm] using h4

/-- C3: the layered `User.CalculateAge` returns the number of completed years.
For a valid date of birth `d` that is not Feb 29 and a reference date `r` on
or after `d`, every anniversary of `d` is a calendar date, and the
result `a` is the largest `k ≥ 0` whose anniversary is on or before `r`: `a` is
non-negative, the `a`-th anniversary is on or before `r`, and every `k ≥ 0`
whose anniversary is on or before `r` is at most `a`. -/
theorem User_CalculateAge_completed_years (d r : Date) (hd : d.Valid)
    (hfeb : ¬ d.isFeb29) (hdr : d ≤ r) :
    (∀ k : Int, (d.anniversary k).Valid) ∧
    0 ≤ User.CalculateAge d r ∧
    d.anniversary (User.CalculateAge d r) ≤ r ∧
    ∀ k : Int, 0 ≤ k → d.anniversary k ≤ r → k ≤ User.CalculateAge d r := by
  refine ⟨Date.anniversary_valid d hd hfeb, ?_⟩
  clear hd hfeb
  simp only [Date.le_iff, Date.anniversary, User.CalculateAge] at *
  refine ⟨?_, ?_, ?_⟩
  · split <;> omega
  · split <;> omega
  · intro k hk hle
    split <;> omega

theorem User_CalculateAge_completed_years_witness :
    User.CalculateAge ⟨1990, 5, 10⟩ ⟨2024, 5, 9⟩ = 33 ∧
    User.CalculateAge ⟨1990, 5, 10⟩ ⟨2024, 5, 10⟩ = 34 ∧
    ((∀ k : Int, ((⟨1990, 5, 10⟩ : Date).anniversary k).Valid) ∧
      0 ≤ User.CalculateAge ⟨1990, 5, 10⟩ ⟨2024, 5, 9⟩ ∧
      (⟨1990, 5, 10⟩ : Date).anniversary (User.CalculateAge ⟨1990, 5, 10⟩ ⟨2024, 5, 9⟩)
        ≤ ⟨2024, 5, 9⟩ ∧
      ∀ k : Int, 0 ≤ k → (⟨1990, 5, 10⟩ : Date).anniversary k ≤ ⟨2024, 5, 9⟩ →
        k ≤ User.CalculateAge ⟨1990, 5, 10⟩ ⟨2024, 5, 9⟩) :=
  ⟨by decide, by decide,
    User_CalculateAge_completed_years ⟨1990, 5, 10⟩ ⟨2024, 5, 9⟩ (by decide) (by decide)
      (by decide)⟩

/-- C4: for both calculators the age of a person born on the reference date
itself is 0. -/
theorem age_born_today (d : Date) :
    calculateAge d d = 0 ∧ User.CalculateAge d d = 0 := by
  simp [calculateAge, User.CalculateAge]

/-- C5: the root `calculateAge` is non-negative and monotone in the reference
date: for a valid date of birth `d` and valid reference dates `r1 ≤ r2` with
`d ≤ r1`, `0 ≤ age d r1 ≤ age d r2`. -/
theorem calculateAge_nonneg_mono (d r1 r2 : Date) (hd : d.Valid) (h1 : r1.Valid)
    (h2 : r2.Valid) (hdr : d ≤ r1) (hrr : r1 ≤ r2) :
    0 ≤ calculateAge d r1 ∧ calculateAge d r1 ≤ calculateAge d r2 := by
  have h0 := calculateAge_nonneg_of_le d r1 hd h1 hdr
  have hB : r1.year = r2.year → r1.YearDay ≤ r2.YearDay :=
    fun hy => YearDay_le_of_le r1 r2 h1 h2 hy hrr
  simp only [Date.le_iff] at hdr hrr
  refine ⟨h0, ?_⟩
  simp only [calculateAge] at h0 ⊢
  split at h0 <;> split <;> omega

theorem calculateAge_nonneg_mono_witness :
    0 ≤ calculateAge ⟨2023, 6, 15⟩ ⟨2024, 12, 31⟩ ∧
    calculateAge ⟨2023, 6, 15⟩ ⟨2024, 12, 31⟩ ≤ calculateAge ⟨2023, 6, 15⟩ ⟨2025, 1, 1⟩ :=
  calculateAge_nonneg_mono ⟨2023, 6, 15⟩ ⟨2024, 12, 31⟩ ⟨2025, 1, 1⟩ (by decide) (by decide)
    (by decide) (by decide) (by decide)

/-- C8: the two calculators agree on leap-day births. For a valid date of birth
that is Feb 29 and every valid reference date, the day-of-year `calculateAge`
and the month/day `User.CalculateAge` return the same age. -/
theorem calculateAge_eq_User_CalculateAge_of_isFeb29 (dob now : Date) (hd : dob.Valid)
    (hfeb : dob.isFeb29) (hn : now.Valid) :
    calculateAge dob now = User.CalculateAge dob now := by
  obtain ⟨yd, md, dd⟩ := dob
  obtain ⟨yn, mn, dn⟩ := now
  simp only [Date.isFeb29] at hfeb
  obtain ⟨hm, hday⟩ := hfeb
  subst hm hday
  simp only [Date.Valid, daysIn] at hd hn
  have hleap : isLeap yd = true := by
    by_contra hne
    simp [hne, daysBefore] at hd
  obtain ⟨hn1, hn2, hn3, hn4⟩ := hn
  simp only [calculateAge, User.CalculateAge, Date.YearDay, hleap]
  cases isLeap yn <;> interval_cases mn <;> simp [daysBefore] at hn4 ⊢ <;> omega

theorem calculateAge_eq_User_CalculateAge_of_isFeb29_witness :
    calculateAge ⟨2000, 2, 29⟩ ⟨2023, 2, 28⟩ = 22 ∧
    calculateAge ⟨2000, 2, 29⟩ ⟨2023, 3, 1⟩ = 23 ∧
    calculateAge ⟨2000, 2, 29⟩ ⟨2023, 3, 1⟩ = User.CalculateAge ⟨2000, 2, 29⟩ ⟨2023, 3, 1⟩ :=
  ⟨by decide, by decide,
    calculateAge_eq_User_CalculateAge_of_isFeb29 ⟨2000, 2, 29⟩ ⟨2023, 3, 1⟩ (by decide)
      (by decide) (by decide)⟩

/-! ## Time line lemmas and the layered validator -/

/-- The exact-arithmetic test `d.Hours() / (24 * 365) ≤ 150` on a duration of
`d` nanoseconds is `d ≤ 150 * 365` days. -/
theorem Hours_div_le_iff (d : Int) :
    Hours d / (24 * 365) ≤ 150 ↔ d ≤ 150 * 365 * nsPerDay := by
  unfold Hours nsPerDay
  rw [div_le_iff₀ (by norm_num), div_le_iff₀ (by norm_num)]
  have : (150 : ℚ) * (24 * 365) * (60 * 60 * 1000000000)
      = ((150 * 365 * (86400 * 1000000000) : Int) : ℚ) := by
    norm_num
  rw [this]
  exact Int.cast_le

/-- What `validateDOB` accepts: the date of birth is not after `now` and at most
150 years of 365 days have elapsed since. -/
theorem validateDOB_iff (dob now : Time) :
    validateDOB dob now = true ↔
      dob.abs ≤ now.abs ∧ now.abs - dob.abs ≤ 150 * 365 * nsPerDay := by
  unfold validateDOB
  by_cases h : now.abs < dob.abs
  · simp [Time.After, h]
  · simp only [Time.After, h, decide_False, Bool.false_eq_true, ↓reduceIte, decide_eq_true_eq,
      Hours_div_le_iff, Since, Time.Sub]
    simp only [minDuration, maxDuration, nsPerDay]
    split
    · omega
    · split <;> omega

theorem isLeap_iff (y : Int) :
    isLeap y = true ↔ y % 4 = 0 ∧ (y % 100 ≠ 0 ∨ y % 400 = 0) := by
  simp [isLeap]

/-- A valid date falls on a day of its year: 1..365, or 1..366 in a leap year. -/
theorem YearDay_bounds (d : Date) (hd : d.Valid) :
    1 ≤ d.YearDay ∧ d.YearDay ≤ 365 + (if isLeap d.year = true then 1 else 0) := by
  obtain ⟨y, m, dd⟩ := d
  simp only [Date.Valid, daysIn] at hd
  obtain ⟨h1, h2, h3, h4⟩ := hd
  simp only [Date.YearDay]
  generalize isLeap y = l at h4 ⊢
  cases l <;> interval_cases m <;> simp [daysBefore] at h4 ⊢ <;> omega

theorem daysBeforeYear_succ (y : Int) :
    daysBeforeYear (y + 1) = daysBeforeYear y + 365 + (if isLeap y = true then 1 else 0) := by
  unfold daysBeforeYear
  by_cases h : isLeap y = true
  · rw [if_pos h]
    rw [isLeap_iff] at h
    omega
  · rw [if_neg h]
    rw [isLeap_iff] at h
    omega

/-- A span of `n` whole years has at least `365 * n` days. -/
theorem daysBeforeYear_add_le (y n : Int) (hn : 0 ≤ n) :
    daysBeforeYear y + 365 * n ≤ daysBeforeYear (y + n) := by
  unfold daysBeforeYear
  omega

/-- A valid date lies within its year on the time line. -/
theorem dayNumber_bounds (d : Date) (hd : d.Valid) :
    daysBeforeYear d.year ≤ d.dayNumber ∧ d.dayNumber < daysBeforeYear (d.year + 1) := by
  have h := YearDay_bounds d hd
  rw [daysBeforeYear_succ]
  unfold Date.dayNumber
  split at h <;> simp_all <;> omega

/-- The time line orders valid dates as the calendar does. -/
theorem Date.le_of_dayNumber_le (a b : Date) (ha : a.Valid) (hb : b.Valid)
    (h : a.dayNumber ≤ b.dayNumber) : a ≤ b := by
  rw [Date.le_iff]
  by_contra hn
  have hA := dayNumber_bounds a ha
  have hB := dayNumber_bounds b hb
  rcases lt_trichotomy a.year b.year with hy | hy | hy
  · exact hn (Or.inl hy)
  · have hlt := (YearDay_lt_iff_of_isLeap_eq b a hb ha (by rw [hy])).mpr (by omega)
    unfold Date.dayNumber at h
    rw [hy] at h
    omega
  · have := daysBeforeYear_add_le (b.year + 1) (a.year - (b.year + 1)) (by omega)
    have e : b.year + 1 + (a.year - (b.year + 1)) = a.year := by ring
    rw [e] at this
    omega

/-- A span of 150 whole years has at least 35 leap days. -/
theorem daysBeforeYear_add_150 (y : Int) :
    daysBeforeYear y + 150 * 365 + 35 ≤ daysBeforeYear (y + 150) := by
  unfold daysBeforeYear
  omega

/-- What every accepted date of birth has, whatever the two locations: an age
of at most 150, and a non-negative age when the date of birth is not read in a
location east of the one `now` is read in (in particular in one location). The
elapsed-hours test is read in exact arithmetic. -/
theorem validateDOB_age_range (dob now : Time) (hd : dob.Valid) (hn : now.Valid)
    (hv : validateDOB dob now = true) :
    (dob.offset ≤ now.offset → 0 ≤ User.CalculateAge dob.date now.date) ∧
    User.CalculateAge dob.date now.date ≤ 150 := by
  rw [validateDOB_iff] at hv
  obtain ⟨hle, hspan⟩ := hv
  obtain ⟨hdv, hdn, hdo1, hdo2⟩ := hd
  obtain ⟨hnv, hnn, hno1, hno2⟩ := hn
  have hD := dayNumber_bounds dob.date hdv
  have hN := dayNumber_bounds now.date hnv
  simp only [Time.abs, nsPerDay, maxZoneOffset] at hle hspan hdn hnn hdo1 hdo2 hno1 hno2
  constructor
  · intro hz
    have hday : dob.date.dayNumber ≤ now.date.dayNumber := by omega
    have hlex := Date.le_of_dayNumber_le dob.date now.date hdv hnv hday
    rw [Date.le_iff] at hlex
    simp only [User.CalculateAge]
    split <;> omega
  · have hyears : now.date.year - dob.date.year ≤ 150 := by
      by_contra hgt
      have h1 := daysBeforeYear_add_150 (dob.date.year + 1)
      have h2 := daysBeforeYear_add_le (dob.date.year + 1 + 150)
        (now.date.year - (dob.date.year + 1 + 150)) (by omega)
      have e : dob.date.year + 1 + 150 + (now.date.year - (dob.date.year + 1 + 150))
          = now.date.year := by ring
      rw [e] at h2
      omega
    simp only [User.CalculateAge]
    split <;> omega

theorem validateDOB_age_range_witness :
    validateDOB ⟨⟨1990, 5, 10⟩, 0, 0⟩ ⟨⟨2024, 5, 9⟩, 43200000000000, 0⟩ = true ∧
    User.CalculateAge ⟨1990, 5, 10⟩ ⟨2024, 5, 9⟩ = 33 ∧
    (((⟨⟨1990, 5, 10⟩, 0, 0⟩ : Time).offset ≤ (⟨⟨2024, 5, 9⟩, 43200000000000, 0⟩ : Time).offset →
        0 ≤ User.CalculateAge (⟨⟨1990, 5, 10⟩, 0, 0⟩ : Time).date
          (⟨⟨2024, 5, 9⟩, 43200000000000, 0⟩ : Time).date) ∧
      User.CalculateAge (⟨⟨1990, 5, 10⟩, 0, 0⟩ : Time).date
        (⟨⟨2024, 5, 9⟩, 43200000000000, 0⟩ : Time).date ≤ 150) :=
  ⟨(validateDOB_iff _ _).mpr (by decide), by decide,
    validateDOB_age_range ⟨⟨1990, 5, 10⟩, 0, 0⟩ ⟨⟨2024, 5, 9⟩, 43200000000000, 0⟩ (by decide)
      (by decide) ((validateDOB_iff _ _).mpr (by decide))⟩

/-- C6: an accepted date of birth with a negative age. The date of birth
2024-05-10 00:00 at offset +14:00 is the instant 2024-05-09 10:00 UTC; at
`now` = 2024-05-09 12:00 UTC it is not after `now` and two hours old, so
`validateDOB` accepts it, while `User.CalculateAge` compares the calendar dates
each value shows in its own location, May 10 against May 9, and returns -1. -/
theorem validateDOB_accepts_negative_age :
    (⟨⟨2024, 5, 10⟩, 0, 50400⟩ : Time).Valid ∧
    (⟨⟨2024, 5, 9⟩, 43200000000000, 0⟩ : Time).Valid ∧
    (⟨⟨2024, 5, 9⟩, 43200000000000, 0⟩ : Time).abs - (⟨⟨2024, 5, 10⟩, 0, 50400⟩ : Time).abs
      = 2 * 3600 * 1000000000 ∧
    validateDOB ⟨⟨2024, 5, 10⟩, 0, 50400⟩ ⟨⟨2024, 5, 9⟩, 43200000000000, 0⟩ = true ∧
    User.CalculateAge (⟨⟨2024, 5, 10⟩, 0, 50400⟩ : Time).date
      (⟨⟨2024, 5, 9⟩, 43200000000000, 0⟩ : Time).date = -1 :=
  ⟨by decide, by decide, by decide, (validateDOB_iff _ _).mpr (by decide), by decide⟩

/-! ## Parsing and formatting lemmas -/

theorem digitChar_digitVal (c : Char) (h : isDigit c = true) : digitChar (digitVal c) = c := by
  simp only [isDigit, Bool.and_eq_true, decide_eq_true_eq] at h
  unfold digitChar digitVal
  rw [Nat.add_sub_cancel' h.1]
  exact Char.ofNat_toNat c

theorem digitVal_lt (c : Char) (h : isDigit c = true) : digitVal c < 10 := by
  simp only [isDigit, Bool.and_eq_true, decide_eq_true_eq] at h
  unfold digitVal
  have h9 : '9'.toNat = 57 := by decide
  have h0 : '0'.toNat = 48 := by decide
  omega

theorem utoa_of_lt (f u : Nat) (h : u < 10) : utoa (f + 1) u = [digitChar u] := by
  simp [utoa, h]

theorem utoa_of_ge (f u : Nat) (h : 10 ≤ u) :
    utoa (f + 1) u = utoa f (u / 10) ++ [digitChar (u % 10)] := by
  have : ¬ u < 10 := by omega
  simp [utoa, this]

theorem digitChar_zero : digitChar 0 = '0' := by decide

theorem appendInt_two (u : Nat) (h : u < 100) :
    appendInt (u : Int) 2 = [digitChar (u / 10), digitChar (u % 10)] := by
  have hneg : ¬ ((u : Int) < 0) := by omega
  simp only [appendInt, Int.natAbs_ofNat, hneg, if_false, List.nil_append]
  by_cases h1 : u < 10
  · have e : u / 10 = 0 := by omega
    have e2 : u % 10 = u := by omega
    rw [utoa_of_lt _ _ h1, e, e2, digitChar_zero]
    rfl
  · rw [utoa_of_ge _ _ (by omega), utoa_of_lt _ _ (by omega)]
    rfl

theorem appendInt_four (u : Nat) (h : u < 10000) :
    appendInt (u : Int) 4 =
      [digitChar (u / 10 / 10 / 10), digitChar (u / 10 / 10 % 10), digitChar (u / 10 % 10),
        digitChar (u % 10)] := by
  have hneg : ¬ ((u : Int) < 0) := by omega
  simp only [appendInt, Int.natAbs_ofNat, hneg, if_false, List.nil_append]
  by_cases h1 : u < 10
  · have e1 : u / 10 / 10 / 10 = 0 := by omega
    have e2 : u / 10 / 10 % 10 = 0 := by omega
    have e3 : u / 10 % 10 = 0 := by omega
    have e4 : u % 10 = u := by omega
    rw [utoa_of_lt _ _ h1, e1, e2, e3, e4, digitChar_zero]
    rfl
  · by_cases h2 : u < 100
    · have e1 : u / 10 / 10 / 10 = 0 := by omega
      have e2 : u / 10 / 10 % 10 = 0 := by omega
      have e3 : u / 10 % 10 = u / 10 := by omega
      rw [utoa_of_ge _ _ (by omega), utoa_of_lt _ _ (by omega), e1, e2, e3, digitChar_zero]
      rfl
    · by_cases h3 : u < 1000
      · have e1 : u / 10 / 10 / 10 = 0 := by omega
        have e2 : u / 10 / 10 % 10 = u / 10 / 10 := by omega
        rw [utoa_of_ge _ _ (by omega), utoa_of_ge _ _ (by omega), utoa_of_lt _ _ (by omega),
          e1, e2, digitChar_zero]
        rfl
      · rw [utoa_of_ge _ _ (by omega), utoa_of_ge _ _ (by omega), utoa_of_ge _ _ (by omega),
          utoa_of_lt _ _ (by omega)]
        rfl

/-- The characters `Date.Format` produces for a parsed date are the characters
that were parsed. -/
theorem Format_data_of_Parse (s : String) (d : Date) (h : Parse s = some d) :
    appendInt d.year 4 ++ ['-'] ++ appendInt d.month 2 ++ ['-'] ++ appendInt d.day 2
      = s.data := by
  unfold Parse at h
  split at h
  · rename_i y1 y2 y3 y4 s1 m1 m2 s2 d1 d2 heq
    rw [heq]
    split at h
    · rename_i hc
      simp only [Bool.and_eq_true, beq_iff_eq] at hc
      obtain ⟨⟨⟨⟨⟨⟨⟨⟨⟨hy1, hy2⟩, hy3⟩, hy4⟩, hs1⟩, hm1⟩, hm2⟩, hs2⟩, hd1⟩, hd2⟩ := hc
      have b1 := digitVal_lt y1 hy1
      have b2 := digitVal_lt y2 hy2
      have b3 := digitVal_lt y3 hy3
      have b4 := digitVal_lt y4 hy4
      have b5 := digitVal_lt m1 hm1
      have b6 := digitVal_lt m2 hm2
      have b7 := digitVal_lt d1 hd1
      have b8 := digitVal_lt d2 hd2
      have c1 := digitChar_digitVal y1 hy1
      have c2 := digitChar_digitVal y2 hy2
      have c3 := digitChar_digitVal y3 hy3
      have c4 := digitChar_digitVal y4 hy4
      have c5 := digitChar_digitVal m1 hm1
      have c6 := digitChar_digitVal m2 hm2
      have c7 := digitChar_digitVal d1 hd1
      have c8 := digitChar_digitVal d2 hd2
      generalize digitVal y1 = a1 at *
      generalize digitVal y2 = a2 at *
      generalize digitVal y3 = a3 at *
      generalize digitVal y4 = a4 at *
      generalize digitVal m1 = a5 at *
      generalize digitVal m2 = a6 at *
      generalize digitVal d1 = a7 at *
      generalize digitVal d2 = a8 at *
      simp only at h
      split at h
      · cases h
      · split at h
        · cases h
        · injection h with h
          subst h
          simp only
          rw [appendInt_four _ (by omega), appendInt_two _ (by omega), appendInt_two _ (by omega)]
          have e1 : (a1 * 1000 + a2 * 100 + a3 * 10 + a4) / 10 / 10 / 10 = a1 := by omega
          have e2 : (a1 * 1000 + a2 * 100 + a3 * 10 + a4) / 10 / 10 % 10 = a2 := by omega
          have e3 : (a1 * 1000 + a2 * 100 + a3 * 10 + a4) / 10 % 10 = a3 := by omega
          have e4 : (a1 * 1000 + a2 * 100 + a3 * 10 + a4) % 10 = a4 := by omega
          have e5 : (a5 * 10 + a6) / 10 = a5 := by omega
          have e6 : (a5 * 10 + a6) % 10 = a6 := by omega
          have e7 : (a7 * 10 + a8) / 10 = a7 := by omega
          have e8 : (a7 * 10 + a8) % 10 = a8 := by omega
          rw [e1, e2, e3, e4, e5, e6, e7, e8, c1, c2, c3, c4, c5, c6, c7, c8, hs1, hs2]
          rfl
    · cases h
  · cases h

/-- Formatting a parsed date gives back the string that was parsed. -/
theorem Format_of_Parse (s : String) (d : Date) (h : Parse s = some d) : d.Format = s := by
  unfold Date.Format
  rw [Format_data_of_Parse s d h]

/-- Every date that `Parse` returns is a calendar date. -/
theorem Parse_valid (s : String) (d : Date) (h : Parse s = some d) : d.Valid := by
  unfold Parse at h
  split at h
  · split at h
    · simp only at h
      split at h
      · cases h
      · split at h
        · cases h
        · injection h with h
          subst h
          simp only [Date.Valid]
          omega
    · cases h
  · cases h

/-! ## Claims about the root implementation -/

namespace Root

theorem toInt32_of_range (x : Int) (h1 : -2147483648 ≤ x) (h2 : x < 2147483648) :
    toInt32 x = x := by
  unfold toInt32
  omega

/-- C7, as the code has it: the root handler accepts a date of birth in the
future, and the response then carries a negative age. The request
`{name: "Alice", dob: "2999-01-01"}` passes the struct validation and the
date-format check, and on 2024-05-09 the 201 response has age -975. -/
theorem CreateUser_future_dob_negative_age :
    (⟨"Alice", "2999-01-01"⟩ : CreateUserRequest).validate = true ∧
    Parse "2999-01-01" = some ⟨2999, 1, 1⟩ ∧
    (⟨2024, 5, 9⟩ : Date).Valid ∧
    (UserHandler.CreateUser Store.queries ⟨2024, 5, 9⟩ Store.empty
        (some ⟨"Alice", "2999-01-01"⟩)).1
      = (201, some ⟨1, "Alice", "2999-01-01", some (-975)⟩) ∧
    calculateAge ⟨2999, 1, 1⟩ ⟨2024, 5, 9⟩ = -975 := by
  decide

/-- C7, amended: for every create request that passes the root handler's
validation, with date of birth `d`, and every current date `now` on or after
`d`, `calculateAge d now ≥ 0`; and when the store accepts the insert the handler
answers 201 with that age, the request's name and the request's date string. -/
theorem CreateUser_age_nonneg {σ : Type} (q : Queries σ) (now : Date) (st : σ)
    (req : CreateUserRequest) (d : Date) (hv : req.validate = true)
    (hp : Parse req.DOB = some d) (hn : now.Valid) (hle : d ≤ now) :
    0 ≤ calculateAge d now ∧
    ∀ (id : Int) (st1 : σ), q.CreateUser st req.Name d = (.ok id, st1) →
      UserHandler.CreateUser q now st (some req)
        = ((201, some ⟨id, req.Name, req.DOB, some (calculateAge d now)⟩), st1) := by
  refine ⟨calculateAge_nonneg_of_le d now (Parse_valid _ _ hp) hn hle, ?_⟩
  intro id st1 hc
  simp only [UserHandler.CreateUser, hv, hp, UserService.CreateUser, UserRepository.Create, hc,
    Format_of_Parse _ _ hp]
  rfl

theorem CreateUser_age_nonneg_witness :
    0 ≤ calculateAge ⟨1990, 5, 10⟩ ⟨2024, 5, 9⟩ ∧
    ∀ (id : Int) (st1 : Store),
      Store.queries.CreateUser Store.empty (⟨"Alice", "1990-05-10"⟩ : CreateUserRequest).Name
          ⟨1990, 5, 10⟩ = (.ok id, st1) →
      UserHandler.CreateUser Store.queries ⟨2024, 5, 9⟩ Store.empty
          (some ⟨"Alice", "1990-05-10"⟩)
        = ((201, some ⟨id, (⟨"Alice", "1990-05-10"⟩ : CreateUserRequest).Name,
            (⟨"Alice", "1990-05-10"⟩ : CreateUserRequest).DOB,
            some (calculateAge ⟨1990, 5, 10⟩ ⟨2024, 5, 9⟩)⟩), st1) :=
  CreateUser_age_nonneg Store.queries ⟨2024, 5, 9⟩ Store.empty ⟨"Alice", "1990-05-10"⟩
    ⟨1990, 5, 10⟩ (by decide) (by decide) (by decide) (by decide)

/-- C9: date-of-birth round trip in the root `UserService.CreateUser`. For every
request whose DOB string parses under the layout `2006-01-02` and every store
that accepts the insert, the service returns a response whose `dob` field is
exactly the request's string. -/
theorem CreateUser_dob_roundtrip {σ : Type} (q : Queries σ) (now : Date) (st : σ)
    (req : CreateUserRequest) (d : Date) (id : Int) (st1 : σ)
    (hp : Parse req.DOB = some d) (hc : q.CreateUser st req.Name d = (.ok id, st1)) :
    ∃ resp : UserResponse,
      UserService.CreateUser q now st req = (.ok resp, st1) ∧ resp.DOB = req.DOB := by
  refine ⟨⟨id, req.Name, d.Format, some (calculateAge d now)⟩, ?_, Format_of_Parse _ _ hp⟩
  simp only [UserService.CreateUser, hp, UserRepository.Create, hc]

theorem CreateUser_dob_roundtrip_witness :
    (UserService.CreateUser Store.queries ⟨2024, 5, 9⟩ Store.empty ⟨"Alice", "2000-01-01"⟩).1
      = .ok ⟨1, "Alice", "2000-01-01", some 24⟩ ∧
    ∃ resp : UserResponse,
      UserService.CreateUser Store.queries ⟨2024, 5, 9⟩ Store.empty ⟨"Alice", "2000-01-01"⟩
        = (.ok resp, (Store.queries.CreateUser Store.empty "Alice" ⟨2000, 1, 1⟩).2) ∧
      resp.DOB = (⟨"Alice", "2000-01-01"⟩ : CreateUserRequest).DOB :=
  ⟨by decide,
    CreateUser_dob_roundtrip Store.queries ⟨2024, 5, 9⟩ Store.empty ⟨"Alice", "2000-01-01"⟩
      ⟨2000, 1, 1⟩ 1 _ (by decide) rfl⟩

/-- What the root `UserService.UpdateUser` does on the map store for an existing
user once the date of birth to write is known. -/
theorem UpdateUser_of_row (st : Store) (now : Date) (id : Int) (req : UpdateUserRequest)
    (name0 : String) (dob0 dob : Date) (hrow : st.rows id = some (name0, dob0))
    (h1 : -2147483648 ≤ id) (h2 : id < 2147483648)
    (hdob : (if req.DOB ≠ "" then Parse req.DOB else some dob0) = some dob) :
    UserService.UpdateUser Store.queries now st id req
      = (.ok ⟨id, if req.Name ≠ "" then req.Name else name0, dob.Format,
            some (calculateAge dob now)⟩,
          { rows := fun j =>
              if j = id then some (if req.Name ≠ "" then req.Name else name0, dob)
              else st.rows j,
            lastID := st.lastID }) := by
  simp only [UserService.UpdateUser, UserRepository.GetByID, UserRepository.Update,
    Store.queries, toInt32_of_range id h1 h2, hrow, hdob, if_true]

/-- C10: lenient update merge in the root `UserService.UpdateUser` over the map
store. For every existing user (a row `(name0, dob0)` under an id of the
column's int32 type) and every request: the name written is the request's name
if it is non-empty and `name0` otherwise; independently the date of birth
written is `dob0` if the request's dob string is empty and the parsed date if it
is non-empty and parses; no other row changes; and a request with name `""` and
dob `""` leaves the store as it was. -/
theorem UpdateUser_lenient_merge (st : Store) (now : Date) (id : Int)
    (req : UpdateUserRequest) (name0 : String) (dob0 : Date)
    (hrow : st.rows id = some (name0, dob0))
    (h1 : -2147483648 ≤ id) (h2 : id < 2147483648) :
    (req.DOB = "" →
      (UserService.UpdateUser Store.queries now st id req).2.rows id
        = some (if req.Name ≠ "" then req.Name else name0, dob0)) ∧
    (∀ d : Date, req.DOB ≠ "" → Parse req.DOB = some d →
      (UserService.UpdateUser Store.queries now st id req).2.rows id
        = some (if req.Name ≠ "" then req.Name else name0, d)) ∧
    (∀ j : Int, j ≠ id →
      (UserService.UpdateUser Store.queries now st id req).2.rows j = st.rows j) ∧
    (req.Name = "" → req.DOB = "" →
      (UserService.UpdateUser Store.queries now st id req).2.rows = st.rows ∧
      (UserService.UpdateUser Store.queries now st id req).2.lastID = st.lastID ∧
      (UserService.UpdateUser Store.queries now st id req).1
        = .ok ⟨id, name0, dob0.Format, some (calculateAge dob0 now)⟩) := by
  refine ⟨?_, ?_, ?_, ?_⟩
  · intro he
    rw [UpdateUser_of_row st now id req name0 dob0 dob0 hrow h1 h2 (by simp [he])]
    simp
  · intro d hne hp
    rw [UpdateUser_of_row st now id req name0 dob0 d hrow h1 h2 (by simp [hne, hp])]
    simp
  · intro j hj
    cases hparsed : (if req.DOB ≠ "" then Parse req.DOB else some dob0) with
    | none =>
      simp only [UserService.UpdateUser, UserRepository.GetByID, Store.queries,
        toInt32_of_range id h1 h2, hrow, hparsed]
    | some dob =>
      rw [UpdateUser_of_row st now id req name0 dob0 dob hrow h1 h2 hparsed]
      simp [hj]
  · intro hn he
    rw [UpdateUser_of_row st now id req name0 dob0 dob0 hrow h1 h2 (by simp [he])]
    refine ⟨?_, rfl, by simp [hn]⟩
    funext j
    by_cases hj : j = id
    · subst hj
      simp [hn, hrow]
    · simp [hj]

theorem UpdateUser_lenient_merge_witness :
    (Store.queries.CreateUser Store.empty "A" ⟨1990, 1, 1⟩).2.rows 1
      = some ("A", ⟨1990, 1, 1⟩) ∧
    (UserService.UpdateUser Store.queries ⟨2024, 5, 9⟩
        (Store.queries.CreateUser Store.empty "A" ⟨1990, 1, 1⟩).2 1 ⟨"B", ""⟩).2.rows 1
      = some ("B", ⟨1990, 1, 1⟩) ∧
    (UserService.UpdateUser Store.queries ⟨2024, 5, 9⟩
        (Store.queries.CreateUser Store.empty "A" ⟨1990, 1, 1⟩).2 1 ⟨"", "2000-02-29"⟩).2.rows 1
      = some ("A", ⟨2000, 2, 29⟩) ∧
    ((UserService.UpdateUser Store.queries ⟨2024, 5, 9⟩
        (Store.queries.CreateUser Store.empty "A" ⟨1990, 1, 1⟩).2 1 ⟨"", ""⟩).2.rows
      = (Store.queries.CreateUser Store.empty "A" ⟨1990, 1, 1⟩).2.rows ∧
    (UserService.UpdateUser Store.queries ⟨2024, 5, 9⟩
        (Store.queries.CreateUser Store.empty "A" ⟨1990, 1, 1⟩).2 1 ⟨"", ""⟩).2.lastID
      = (Store.queries.CreateUser Store.empty "A" ⟨1990, 1, 1⟩).2.lastID ∧
    (UserService.UpdateUser Store.queries ⟨2024, 5, 9⟩
        (Store.queries.CreateUser Store.empty "A" ⟨1990, 1, 1⟩).2 1 ⟨"", ""⟩).1
      = .ok ⟨1, "A", (⟨1990, 1, 1⟩ : Date).Format,
          some (calculateAge ⟨1990, 1, 1⟩ ⟨2024, 5, 9⟩)⟩) :=
  ⟨by decide, by decide, by decide,
    (UpdateUser_lenient_merge (Store.queries.CreateUser Store.empty "A" ⟨1990, 1, 1⟩).2
      ⟨2024, 5, 9⟩ 1 ⟨"", ""⟩ "A" ⟨1990, 1, 1⟩ (by decide) (by decide) (by decide)).2.2.2
      rfl rfl⟩

end Root

/-! ## Claims about updates and missing users -/

/-- C11: update is atomic with respect to validation failure in both services.
Root: for every database, whenever the request's DOB string is non-empty and
does not parse, `UserService.UpdateUser` returns an error and the store state
is the one it started from (the parse error itself when the user exists).
Layered: for every repository, whenever `User.Validate` rejects the replacement
record, `userService.UpdateUser` returns an error and the store state is the
one it started from (the validation error itself when the user exists). As this
holds whatever the store's update operation would do, that operation is not
invoked. -/
theorem UpdateUser_atomic_on_validation_failure :
    (∀ (σ : Type) (q : Root.Queries σ) (now : Date) (st : σ) (id : Int)
        (req : Root.UpdateUserRequest), req.DOB ≠ "" → Parse req.DOB = none →
      (∃ err, Root.UserService.UpdateUser q now st id req = (.error err, st)) ∧
      (∀ existing, Root.UserRepository.GetByID q st id = .ok existing →
        Root.UserService.UpdateUser q now st id req = (.error Root.Error.parse, st))) ∧
    (∀ (σ : Type) (repo : Layered.UserRepository σ) (now : Time) (st : σ) (id : Int)
        (req : Layered.UpdateUserRequest) (err : Layered.Error),
      Layered.User.Validate
          { ID := id, Name := req.Name, DOB := req.DOB, Age := 0,
            CreatedAt := Layered.zeroTime, UpdatedAt := Layered.zeroTime } now = .error err →
      (∃ err1, Layered.userService.UpdateUser repo now st id req = (.error err1, st)) ∧
      (∀ existing, 0 < id → repo.GetUserByID st id = .ok (some existing) →
        Layered.userService.UpdateUser repo now st id req = (.error err, st))) := by
  constructor
  · intro σ q now st id req hne hp
    constructor
    · unfold Root.UserService.UpdateUser
      cases hg : Root.UserRepository.GetByID q st id with
      | error e => exact ⟨e, rfl⟩
      | ok existing => exact ⟨Root.Error.parse, by simp [hne, hp]⟩
    · intro existing hg
      simp [Root.UserService.UpdateUser, hg, hne, hp]
  · intro σ repo now st id req err hv
    constructor
    · unfold Layered.userService.UpdateUser
      by_cases hid : id ≤ 0
      · exact ⟨Layered.Error.userNotFound, by simp [hid]⟩
      · cases hg : repo.GetUserByID st id with
        | error e => exact ⟨e, by simp [hid]⟩
        | ok o =>
          cases o with
          | none => exact ⟨Layered.Error.userNotFound, by simp [hid]⟩
          | some existing => exact ⟨err, by simp [hid, hv]⟩
    · intro existing hid hg
      have : ¬ id ≤ 0 := by omega
      simp [Layered.userService.UpdateUser, this, hg, hv]

theorem UpdateUser_atomic_on_validation_failure_witness :
    Root.UserService.UpdateUser Root.Store.queries ⟨2024, 5, 9⟩
        (Root.Store.queries.CreateUser Root.Store.empty "A" ⟨1990, 1, 1⟩).2 1
        ⟨"B", "10/05/1990"⟩
      = (.error Root.Error.parse,
          (Root.Store.queries.CreateUser Root.Store.empty "A" ⟨1990, 1, 1⟩).2) ∧
    Layered.userService.UpdateUser (Layered.userRepository Layered.Store.queries)
        ⟨⟨2024, 5, 9⟩, 0, 0⟩ (Layered.Store.filled 1) 1 ⟨"B", ⟨⟨1990, 5, 10⟩, 0, 0⟩⟩
      = (.error Layered.Error.validation, Layered.Store.filled 1) :=
  ⟨(UpdateUser_atomic_on_validation_failure.1 Root.Store Root.Store.queries ⟨2024, 5, 9⟩
      (Root.Store.queries.CreateUser Root.Store.empty "A" ⟨1990, 1, 1⟩).2 1
      ⟨"B", "10/05/1990"⟩ (by decide) (by decide)).2 ⟨1, "A", ⟨1990, 1, 1⟩⟩ (by decide),
    (UpdateUser_atomic_on_validation_failure.2 Layered.Store
      (Layered.userRepository Layered.Store.queries) ⟨⟨2024, 5, 9⟩, 0, 0⟩ (Layered.Store.filled 1)
      1 ⟨"B", ⟨⟨1990, 5, 10⟩, 0, 0⟩⟩ Layered.Error.validation (by decide)).2
      ⟨1, "user", ⟨⟨1990, 5, 10⟩, 0, 0⟩, 0, ⟨⟨2024, 5, 9⟩, 43200000000000, 0⟩,
        ⟨⟨2024, 5, 9⟩, 43200000000000, 0⟩⟩ (by decide) (by decide)⟩

/-- C19: not-found handling in the layered service. For every database behind
the layered repository, whenever `id ≤ 0` or the store has no row for `id`
(`GetUser` answers `sql.ErrNoRows`), `userService.GetUserByID`, `UpdateUser` and
`DeleteUser` each return `ErrUserNotFound` and leave the store state as it was,
whatever the store's update and delete operations would do, so neither is
invoked; `UpdateUser` does so for every request body, valid or not. On the map
store, "no row for `id`" is `Store.find` returning nothing. -/
theorem userService_not_found :
    (∀ (σ : Type) (q : Layered.Queries σ) (now : Time) (st : σ) (id : Int)
        (req : Layered.UpdateUserRequest),
      id ≤ 0 ∨ q.GetUser st id = .error Layered.Error.noRows →
      Layered.userService.GetUserByID (Layered.userRepository q) st id
        = .error Layered.Error.userNotFound ∧
      Layered.userService.UpdateUser (Layered.userRepository q) now st id req
        = (.error Layered.Error.userNotFound, st) ∧
      Layered.userService.DeleteUser (Layered.userRepository q) st id
        = (.error Layered.Error.userNotFound, st)) ∧
    (∀ (now : Time) (st : Layered.Store) (id : Int) (req : Layered.UpdateUserRequest),
      id ≤ 0 ∨ st.find id = none →
      Layered.userService.GetUserByID (Layered.userRepository Layered.Store.queries) st id
        = .error Layered.Error.userNotFound ∧
      Layered.userService.UpdateUser (Layered.userRepository Layered.Store.queries) now st id req
        = (.error Layered.Error.userNotFound, st) ∧
      Layered.userService.DeleteUser (Layered.userRepository Layered.Store.queries) st id
        = (.error Layered.Error.userNotFound, st)) := by
  have gen : ∀ (σ : Type) (q : Layered.Queries σ) (now : Time) (st : σ) (id : Int)
      (req : Layered.UpdateUserRequest),
      id ≤ 0 ∨ q.GetUser st id = .error Layered.Error.noRows →
      Layered.userService.GetUserByID (Layered.userRepository q) st id
        = .error Layered.Error.userNotFound ∧
      Layered.userService.UpdateUser (Layered.userRepository q) now st id req
        = (.error Layered.Error.userNotFound, st) ∧
      Layered.userService.DeleteUser (Layered.userRepository q) st id
        = (.error Layered.Error.userNotFound, st) := by
    intro σ q now st id req h
    by_cases hid : id ≤ 0
    · simp [Layered.userService.GetUserByID, Layered.userService.UpdateUser,
        Layered.userService.DeleteUser, hid]
    · have hg : q.GetUser st id = .error Layered.Error.noRows := by
        rcases h with h | h
        · exact absurd h hid
        · exact h
      simp [Layered.userService.GetUserByID, Layered.userService.UpdateUser,
        Layered.userService.DeleteUser, Layered.userRepository, hid, hg]
  refine ⟨gen, ?_⟩
  intro now st id req h
  apply gen
  rcases h with h | h
  · exact Or.inl h
  · right
    simp [Layered.Store.queries, h]

theorem userService_not_found_witness :
    (Layered.Store.filled 1).find 7 = none ∧
    Layered.userService.GetUserByID (Layered.userRepository Layered.Store.queries)
        (Layered.Store.filled 1) 7 = .error Layered.Error.userNotFound ∧
    Layered.userService.UpdateUser (Layered.userRepository Layered.Store.queries)
        ⟨⟨2024, 5, 9⟩, 0, 0⟩ (Layered.Store.filled 1) 7 ⟨"", Layered.zeroTime⟩
      = (.error Layered.Error.userNotFound, Layered.Store.filled 1) ∧
    Layered.userService.DeleteUser (Layered.userRepository Layered.Store.queries)
        (Layered.Store.filled 1) 7 = (.error Layered.Error.userNotFound, Layered.Store.filled 1) :=
  ⟨by decide,
    userService_not_found.2 ⟨⟨2024, 5, 9⟩, 0, 0⟩ (Layered.Store.filled 1) 7
      ⟨"", Layered.zeroTime⟩ (Or.inr (by decide))⟩

/-! ## Claims about pagination -/

theorem toInt64_of_range (x : Int) (h1 : -9223372036854775808 ≤ x)
    (h2 : x < 9223372036854775808) : toInt64 x = x := by
  unfold toInt64
  omega

/-- The call `userService.ListUsers` makes to the repository: the normalised
page size and the `int32` offset. -/
theorem Layered.ListUsers_eq {σ : Type} (repo : Layered.UserRepository σ) (st : σ)
    (page pageSize : Int) :
    Layered.userService.ListUsers repo st page pageSize
      = match repo.ListUsers st (Layered.normPageSize pageSize)
          (Layered.listOffset page pageSize) with
        | .error err => .error err
        | .ok users =>
          .ok (users,
            { Page := Layered.normPage page, PageSize := Layered.normPageSize pageSize,
              TotalCount := toInt64 (users.length : Int),
              TotalPages := Root.toInt32 (goDiv
                (toInt64 (toInt64 (toInt64 (users.length : Int)
                  + toInt64 (Layered.normPageSize pageSize)) - 1))
                (toInt64 (Layered.normPageSize pageSize))) }) := by
  rfl

/-- C12: pagination normalisation in the layered `userService.ListUsers`. For
every `page` and `pageSize`, the service returns whenever the repository
returns a page, and the `Pagination` it returns has `Page = 1` if `page < 1`
and `Page = page` otherwise, and `PageSize = 10` if `pageSize ≤ 0`, 100 if
`pageSize > 100` and `pageSize` otherwise; hence `Page ≥ 1` and
`1 ≤ PageSize ≤ 100`. -/
theorem ListUsers_normalisation (σ : Type) (repo : Layered.UserRepository σ) (st : σ)
    (page pageSize : Int) :
    (∀ users, repo.ListUsers st (Layered.normPageSize pageSize)
        (Layered.listOffset page pageSize) = .ok users →
      ∃ p, Layered.userService.ListUsers repo st page pageSize = .ok (users, p)) ∧
    (∀ users p, Layered.userService.ListUsers repo st page pageSize = .ok (users, p) →
      p.Page = (if page < 1 then 1 else page) ∧
      p.PageSize = (if pageSize ≤ 0 then 10 else if pageSize > 100 then 100 else pageSize) ∧
      1 ≤ p.Page ∧ 1 ≤ p.PageSize ∧ p.PageSize ≤ 100) := by
  constructor
  · intro users h
    rw [Layered.ListUsers_eq, h]
    exact ⟨_, rfl⟩
  · intro users p h
    rw [Layered.ListUsers_eq] at h
    cases hl : repo.ListUsers st (Layered.normPageSize pageSize)
        (Layered.listOffset page pageSize) with
    | error e => rw [hl] at h; cases h
    | ok us =>
      rw [hl] at h
      simp only [Except.ok.injEq, Prod.mk.injEq] at h
      obtain ⟨_, hp⟩ := h
      subst hp
      show Layered.normPage page = _ ∧ Layered.normPageSize pageSize = _ ∧
        1 ≤ Layered.normPage page ∧ 1 ≤ Layered.normPageSize pageSize ∧
        Layered.normPageSize pageSize ≤ 100
      unfold Layered.normPage Layered.normPageSize
      refine ⟨rfl, ?_, ?_, ?_, ?_⟩ <;> split_ifs <;> omega

theorem ListUsers_normalisation_witness :
    (Layered.userService.ListUsers (Layered.userRepository Layered.Store.queries)
        (Layered.Store.filled 3) 0 0).map (fun r => (r.2.Page, r.2.PageSize)) = .ok (1, 10) ∧
    (Layered.userService.ListUsers (Layered.userRepository Layered.Store.queries)
        (Layered.Store.filled 3) 3 500).map (fun r => (r.2.Page, r.2.PageSize)) = .ok (3, 100) ∧
    ∃ p, Layered.userService.ListUsers (Layered.userRepository Layered.Store.queries)
        (Layered.Store.filled 3) 3 500 = .ok ([], p) :=
  ⟨by decide, by decide,
    (ListUsers_normalisation Layered.Store (Layered.userRepository Layered.Store.queries)
      (Layered.Store.filled 3) 3 500).1 [] (by decide)⟩

/-- When `(P - 1) * L` fits in an `int32`, the offset is that product. -/
theorem Layered.listOffset_of_fits (page pageSize : Int) (hp : page < 2147483648)
    (hfit : (Layered.normPage page - 1) * Layered.normPageSize pageSize < 2147483648) :
    Layered.listOffset page pageSize
      = (Layered.normPage page - 1) * Layered.normPageSize pageSize := by
  have h1 : 0 ≤ Layered.normPage page - 1 := by
    unfold Layered.normPage; split <;> omega
  have h2 : Layered.normPage page - 1 < 2147483648 := by
    unfold Layered.normPage; split <;> omega
  have h3 : 0 ≤ Layered.normPageSize pageSize := by
    unfold Layered.normPageSize; split <;> (try split) <;> omega
  have h4 : 0 ≤ (Layered.normPage page - 1) * Layered.normPageSize pageSize :=
    Int.mul_nonneg h1 h3
  unfold Layered.listOffset
  rw [Root.toInt32_of_range _ (by omega) h2, Root.toInt32_of_range _ (by omega) hfit]

/-- C13: the offset of the layered `userService.ListUsers` at `page = 21474838`,
`pageSize = 100`. Both are already normalised, `(P - 1) * L = 2147483700` does
not fit in an `int32`, and the offset the code computes is `-2147483596`: it is
neither `(P - 1) * L` nor non-negative, and the map store rejects it. -/
theorem ListUsers_offset_overflow :
    Layered.normPage 21474838 = 21474838 ∧ Layered.normPageSize 100 = 100 ∧
    (Layered.normPage 21474838 - 1) * Layered.normPageSize 100 = 2147483700 ∧
    Layered.listOffset 21474838 100 = -2147483596 ∧
    Layered.userService.ListUsers (Layered.userRepository Layered.Store.queries)
        (Layered.Store.filled 3) 21474838 100 = .error Layered.Error.db := by
  decide

/-- Ceiling division: for `0 ≤ a` and `0 < b`, the quotient `(a + b - 1) / b`
is the least `n ≥ 0` with `a ≤ n * b`. -/
theorem ceilDiv_spec (a b : Int) (ha : 0 ≤ a) (hb : 0 < b) :
    0 ≤ (a + b - 1) / b ∧ a ≤ (a + b - 1) / b * b ∧
    (∀ n : Int, 0 ≤ n → a ≤ n * b → (a + b - 1) / b ≤ n) ∧
    (a = 0 → (a + b - 1) / b = 0) := by
  refine ⟨Int.ediv_nonneg (by omega) (by omega), ?_, ?_, ?_⟩
  · have h := Int.lt_ediv_add_one_mul_self (a + b - 1) hb
    have e : ((a + b - 1) / b + 1) * b = (a + b - 1) / b * b + b := by ring
    rw [e] at h
    omega
  · intro n _ hn
    have h : (a + b - 1) / b < n + 1 := by
      apply Int.ediv_lt_of_lt_mul hb
      have e : (n + 1) * b = n * b + b := by ring
      rw [e]
      omega
    omega
  · intro h0
    subst h0
    exact Int.ediv_eq_zero_of_lt (by omega) (by omega)

/-- C14: total-page count in the root `UserService.GetUsersPaginated`. For every
database that returns a page and a row count `total ≥ 0`, and every limit with
`1 ≤ limit ≤ 100` (the sum `total + limit - 1` fitting in an `int`, as it does
for every count below `2^63 - 100`), the service returns a response whose
`TotalPages` is the ceiling of `total / limit`: the least `n ≥ 0` with
`n * limit ≥ total`, and 0 when `total = 0`. -/
theorem GetUsersPaginated_TotalPages (σ : Type) (pq : Root.PageQueries σ) (now : Date)
    (st : σ) (page limit total : Int) (users : List Root.User)
    (hu : Root.UserRepository.GetPaginated pq st limit (toInt64 (toInt64 (page - 1) * limit))
      = .ok users)
    (hc : Root.UserRepository.Count pq st = .ok total)
    (h0 : 0 ≤ total) (h1 : 1 ≤ limit) (h2 : limit ≤ 100)
    (hfit : total + limit - 1 < 9223372036854775808) :
    ∃ r : Root.PaginatedResponse,
      Root.UserService.GetUsersPaginated pq now st page limit = some (.ok r) ∧
      r.Total = total ∧ r.Limit = limit ∧
      0 ≤ r.TotalPages ∧ total ≤ r.TotalPages * limit ∧
      (∀ n : Int, 0 ≤ n → total ≤ n * limit → r.TotalPages ≤ n) ∧
      (total = 0 → r.TotalPages = 0) := by
  have hl : limit ≠ 0 := by omega
  have e1 : toInt64 total = total := toInt64_of_range _ (by omega) (by omega)
  have e3 : toInt64 (toInt64 (total + limit) - 1) = total + limit - 1 := by
    unfold toInt64
    omega
  have e4 : goDiv (total + limit - 1) limit = (total + limit - 1) / limit :=
    Int.tdiv_eq_ediv (by omega) (by omega)
  obtain ⟨c1, c2, c3, c4⟩ := ceilDiv_spec total limit h0 (by omega)
  refine ⟨{ Data := users.map fun u =>
                { ID := u.ID, Name := u.Name, DOB := u.DOB.Format,
                  Age := some (calculateAge u.DOB now) },
             Total := total, Page := page, Limit := limit,
             TotalPages := (total + limit - 1) / limit }, ?_, rfl, rfl, c1, c2, c3, c4⟩
  simp only [Root.UserService.GetUsersPaginated, hu, hc, hl, if_false, e1, e3, e4]

theorem GetUsersPaginated_TotalPages_witness :
    (Root.UserService.GetUsersPaginated
        (⟨fun _ _ _ => .ok [], fun _ => .ok 25⟩ : Root.PageQueries Unit) ⟨2024, 5, 9⟩ () 3 10).map
      (fun res => res.map fun r => r.TotalPages) = some (.ok 3) ∧
    ∃ r : Root.PaginatedResponse,
      Root.UserService.GetUsersPaginated
          (⟨fun _ _ _ => .ok [], fun _ => .ok 25⟩ : Root.PageQueries Unit) ⟨2024, 5, 9⟩ () 3 10
        = some (.ok r) ∧
      r.Total = 25 ∧ r.Limit = 10 ∧ 0 ≤ r.TotalPages ∧ 25 ≤ r.TotalPages * 10 ∧
      (∀ n : Int, 0 ≤ n → 25 ≤ n * 10 → r.TotalPages ≤ n) ∧ ((25 : Int) = 0 → r.TotalPages = 0) :=
  ⟨by decide,
    GetUsersPaginated_TotalPages Unit ⟨fun _ _ _ => .ok [], fun _ => .ok 25⟩ ⟨2024, 5, 9⟩ () 3 10
      25 [] (by decide) (by decide) (by decide) (by decide) (by decide) (by decide)⟩

/-- C15, as the code has it: the layered `userService.ListUsers` takes the total
count from the returned page, not from the store. A store of 25 users listed
with `page = 1`, `pageSize = 10` reports `TotalCount = 10` and
`TotalPages = 1`, not 25 and 3. -/
theorem ListUsers_TotalCount_25_users :
    (Layered.Store.filled 25).rows.length = 25 ∧
    (Layered.userService.ListUsers (Layered.userRepository Layered.Store.queries)
        (Layered.Store.filled 25) 1 10).map (fun r => r.2)
      = .ok { Page := 1, PageSize := 10, TotalCount := 10, TotalPages := 1 } := by
  decide

/-- C15, amended: over a store holding `N` user rows, whenever the offset is
non-negative the layered `userService.ListUsers` returns the page of the store
(`PageSize` rows after the offset, fewer at the end of the table) and a
`Pagination` whose `TotalCount` is the number of users on that page, at most
`PageSize` and at most `N`, and whose `TotalPages` is the ceiling of
`TotalCount / PageSize`: 1 for a non-empty page and 0 for an empty one. -/
theorem ListUsers_TotalCount_page_length (st : Layered.Store) (page pageSize : Int)
    (hoff : 0 ≤ Layered.listOffset page pageSize) :
    ∃ (users : List Layered.User) (p : Layered.Pagination),
      Layered.userService.ListUsers (Layered.userRepository Layered.Store.queries) st
        page pageSize = .ok (users, p) ∧
      users.length = min (Layered.normPageSize pageSize).toNat
        (st.rows.length - (Layered.listOffset page pageSize).toNat) ∧
      p.TotalCount = users.length ∧ p.TotalCount ≤ p.PageSize ∧
      p.TotalCount ≤ st.rows.length ∧
      p.TotalPages = (if users.length = 0 then 0 else 1) ∧
      p.TotalCount ≤ p.TotalPages * p.PageSize ∧
      (∀ n : Int, 0 ≤ n → p.TotalCount ≤ n * p.PageSize → p.TotalPages ≤ n) := by
  have hL1 : 1 ≤ Layered.normPageSize pageSize := by
    unfold Layered.normPageSize; split_ifs <;> omega
  have hL2 : Layered.normPageSize pageSize ≤ 100 := by
    unfold Layered.normPageSize; split_ifs <;> omega
  generalize hLdef : Layered.normPageSize pageSize = L at *
  generalize hOdef : Layered.listOffset page pageSize = off at *
  have hlist : (Layered.userRepository Layered.Store.queries).ListUsers st L off
      = .ok (((st.rows.drop off.toNat).take L.toNat).map Layered.fromRow) := by
    have hc : ¬ (L < 0 ∨ off < 0) := by omega
    simp [Layered.userRepository, Layered.Store.queries, hc]
  have hlen : (((st.rows.drop off.toNat).take L.toNat).map Layered.fromRow).length
      = min L.toNat (st.rows.length - off.toNat) := by
    simp [List.length_take, List.length_drop]
  generalize hus : ((st.rows.drop off.toNat).take L.toNat).map Layered.fromRow = users at *
  have hc1 : (users.length : Int) ≤ L := by omega
  have hc2 : (users.length : Int) ≤ st.rows.length := by omega
  have e1 : toInt64 (users.length : Int) = users.length :=
    toInt64_of_range _ (by omega) (by omega)
  have e2 : toInt64 L = L := toInt64_of_range _ (by omega) (by omega)
  have e3 : toInt64 (toInt64 ((users.length : Int) + L) - 1) = (users.length : Int) + L - 1 := by
    unfold toInt64
    omega
  have e4 : goDiv ((users.length : Int) + L - 1) L = ((users.length : Int) + L - 1) / L :=
    Int.tdiv_eq_ediv (by omega) (by omega)
  obtain ⟨c1, c2, c3, c4⟩ := ceilDiv_spec (users.length : Int) L (by omega) (by omega)
  have hq : ((users.length : Int) + L - 1) / L = if users.length = 0 then 0 else 1 := by
    split
    · rename_i hz
      exact c4 (by omega)
    · rename_i hz
      have hle : ((users.length : Int) + L - 1) / L ≤ 1 := c3 1 (by omega) (by omega)
      have hpos : 0 < ((users.length : Int) + L - 1) / L := by
        by_contra hneg
        have hzero : ((users.length : Int) + L - 1) / L = 0 := by omega
        rw [hzero] at c2
        omega
      omega
  have e5 : Root.toInt32 (((users.length : Int) + L - 1) / L)
      = ((users.length : Int) + L - 1) / L := by
    rw [hq]
    split <;> rfl
  refine ⟨users, { Page := Layered.normPage page, PageSize := L,
                   TotalCount := users.length,
                   TotalPages := ((users.length : Int) + L - 1) / L }, ?_, hlen, rfl, hc1, hc2,
    hq, c2, c3⟩
  rw [Layered.ListUsers_eq, hLdef, hOdef, hlist]
  simp only [e1, e2, e3, e4, e5]

theorem ListUsers_TotalCount_page_length_witness :
    ∃ (users : List Layered.User) (p : Layered.Pagination),
      Layered.userService.ListUsers (Layered.userRepository Layered.Store.queries)
        (Layered.Store.filled 25) 3 10 = .ok (users, p) ∧
      users.length = min (Layered.normPageSize 10).toNat
        ((Layered.Store.filled 25).rows.length - (Layered.listOffset 3 10).toNat) ∧
      p.TotalCount = users.length ∧ p.TotalCount ≤ p.PageSize ∧
      p.TotalCount ≤ (Layered.Store.filled 25).rows.length ∧
      p.TotalPages = (if users.length = 0 then 0 else 1) ∧
      p.TotalCount ≤ p.TotalPages * p.PageSize ∧
      (∀ n : Int, 0 ≤ n → p.TotalCount ≤ n * p.PageSize → p.TotalPages ≤ n) :=
  ListUsers_TotalCount_page_length (Layered.Store.filled 25) 3 10 (by decide)

/-! ## Claims about the layered validator -/

/-- What `User.Validate` accepts, with the date-of-birth rule spelled out. -/
theorem Layered.Validate_eq_ok_iff (u : Layered.User) (now : Time) :
    u.Validate now = .ok () ↔
      u.Name ≠ "" ∧ 2 ≤ u.Name.length ∧ u.Name.length ≤ 100 ∧ u.DOB ≠ Layered.zeroTime ∧
        u.DOB.abs ≤ now.abs ∧ now.abs - u.DOB.abs ≤ 150 * 365 * nsPerDay := by
  rw [← validateDOB_iff u.DOB now]
  unfold Layered.User.Validate
  split <;> simp_all

/-- Whatever `User.Validate` does not accept gets the validation error. -/
theorem Layered.Validate_eq_error_of_not_ok (u : Layered.User) (now : Time)
    (h : u.Validate now ≠ .ok ()) : u.Validate now = .error Layered.Error.validation := by
  unfold Layered.User.Validate at h ⊢
  split
  · rename_i hc
    simp [hc] at h
  · rfl

/-- A date of birth that `validateDOB` accepts is at most 150 calendar years
before `now`. -/
theorem CalculateAge_le_of_validateDOB (dob now : Time) (hd : dob.Valid) (hn : now.Valid)
    (hv : validateDOB dob now = true) : User.CalculateAge dob.date now.date ≤ 150 := by
  rw [validateDOB_iff] at hv
  obtain ⟨hle, hspan⟩ := hv
  obtain ⟨hdv, hdn, hdo1, hdo2⟩ := hd
  obtain ⟨hnv, hnn, hno1, hno2⟩ := hn
  have hD := dayNumber_bounds dob.date hdv
  have hN := dayNumber_bounds now.date hnv
  simp only [Time.abs, nsPerDay, maxZoneOffset] at hle hspan hdn hnn hdo1 hdo2 hno1 hno2
  have hyears : now.date.year - dob.date.year ≤ 150 := by
    by_contra hgt
    have h1 := daysBeforeYear_add_150 (dob.date.year + 1)
    have h2 := daysBeforeYear_add_le (dob.date.year + 1 + 150)
      (now.date.year - (dob.date.year + 1 + 150)) (by omega)
    have e : dob.date.year + 1 + 150 + (now.date.year - (dob.date.year + 1 + 150))
        = now.date.year := by ring
    rw [e] at h2
    omega
  simp only [User.CalculateAge]
  split <;> omega

/-- C16: the layered `User.Validate` returns an error for every user whose name
is empty, has fewer than 2 characters or has more than 100 characters, for
every date of birth after the current time, and for every date of birth whose
computed age (`User.CalculateAge`) is 151 or more. -/
theorem Validate_rejects (u : Layered.User) (now : Time) (hd : u.DOB.Valid) (hn : now.Valid)
    (h : u.Name = "" ∨ u.Name.length < 2 ∨ 100 < u.Name.length ∨ u.DOB.After now = true ∨
      151 ≤ User.CalculateAge u.DOB.date now.date) :
    u.Validate now = .error Layered.Error.validation := by
  apply Layered.Validate_eq_error_of_not_ok
  intro hok
  unfold Layered.User.Validate at hok
  split at hok
  · rename_i hc
    obtain ⟨c1, c2, c3, _, c5⟩ := hc
    rcases h with h | h | h | h | h
    · exact c1 h
    · omega
    · omega
    · simp [validateDOB, h] at c5
    · have := CalculateAge_le_of_validateDOB u.DOB now hd hn c5
      omega
  · cases hok

theorem Validate_rejects_witness :
    Layered.User.Validate ⟨0, "", ⟨⟨1990, 5, 10⟩, 0, 0⟩, 0, Layered.zeroTime, Layered.zeroTime⟩
        ⟨⟨2024, 5, 9⟩, 0, 0⟩ = .error Layered.Error.validation ∧
    (String.mk (List.replicate 101 'a')).length = 101 ∧
    Layered.User.Validate ⟨0, String.mk (List.replicate 101 'a'), ⟨⟨1990, 5, 10⟩, 0, 0⟩, 0,
        Layered.zeroTime, Layered.zeroTime⟩ ⟨⟨2024, 5, 9⟩, 0, 0⟩
      = .error Layered.Error.validation ∧
    Layered.User.Validate ⟨0, "Alice", ⟨⟨2024, 5, 10⟩, 0, 0⟩, 0, Layered.zeroTime,
        Layered.zeroTime⟩ ⟨⟨2024, 5, 9⟩, 0, 0⟩ = .error Layered.Error.validation ∧
    User.CalculateAge ⟨1873, 5, 9⟩ ⟨2024, 5, 9⟩ = 151 ∧
    Layered.User.Validate ⟨0, "Alice", ⟨⟨1873, 5, 9⟩, 0, 0⟩, 0, Layered.zeroTime,
        Layered.zeroTime⟩ ⟨⟨2024, 5, 9⟩, 0, 0⟩ = .error Layered.Error.validation :=
  ⟨Validate_rejects _ _ (by decide) (by decide) (Or.inl rfl),
    by decide,
    Validate_rejects _ _ (by decide) (by decide) (Or.inr (Or.inr (Or.inl (by decide)))),
    Validate_rejects _ _ (by decide) (by decide)
      (Or.inr (Or.inr (Or.inr (Or.inl (by decide))))),
    by decide,
    Validate_rejects _ _ (by decide) (by decide)
      (Or.inr (Or.inr (Or.inr (Or.inr (by decide)))))⟩

/-- C17, as the code has it: the layered `User.Validate` does not trim the name.
The name of two spaces is whitespace only, its trimmed length is 0, and
`User.Validate` accepts it. -/
theorem Validate_accepts_whitespace_name :
    Layered.specTrimmedName "  " = "" ∧ (Layered.specTrimmedName "  ").length = 0 ∧
    Layered.User.Validate ⟨0, "  ", ⟨⟨1990, 5, 10⟩, 0, 0⟩, 0, Layered.zeroTime, Layered.zeroTime⟩
        ⟨⟨2024, 5, 9⟩, 0, 0⟩ = .ok () :=
  ⟨by decide, by decide, (Layered.Validate_eq_ok_iff _ _).mpr (by decide)⟩

/-- C17, amended: name validation in the layered implementation is applied to
the name as given, without trimming. `User.Validate` accepts a user exactly
when the length of the name lies in [2, 100] and the date of birth passes its
own rule; in particular it rejects the empty name and every name of fewer than
2 or more than 100 characters. -/
theorem Validate_ok_iff_untrimmed_length (u : Layered.User) (now : Time) :
    (u.Validate now = .ok () ↔
      (2 ≤ u.Name.length ∧ u.Name.length ≤ 100) ∧
        (u.DOB ≠ Layered.zeroTime ∧ validateDOB u.DOB now = true)) ∧
    (u.Name = "" → u.Validate now = .error Layered.Error.validation) := by
  have hne : 2 ≤ u.Name.length → u.Name ≠ "" := by
    intro h2 he
    rw [he] at h2
    simp at h2
  constructor
  · unfold Layered.User.Validate
    split
    · rename_i hc
      simp only [true_iff]
      exact ⟨⟨hc.2.1, hc.2.2.1⟩, hc.2.2.2⟩
    · rename_i hc
      simp only [reduceCtorEq, false_iff]
      intro hcon
      exact hc ⟨hne hcon.1.1, hcon.1.1, hcon.1.2, hcon.2⟩
  · intro he
    unfold Layered.User.Validate
    rw [if_neg]
    intro hc
    exact hc.1 he

theorem Validate_ok_iff_untrimmed_length_witness :
    (" a" : String).length = 2 ∧ (Layered.specTrimmedName " a").length = 1 ∧
    Layered.User.Validate ⟨0, "", ⟨⟨1990, 5, 10⟩, 0, 0⟩, 0, Layered.zeroTime, Layered.zeroTime⟩
        ⟨⟨2024, 5, 9⟩, 0, 0⟩ = .error Layered.Error.validation ∧
    Layered.User.Validate ⟨0, " a", ⟨⟨1990, 5, 10⟩, 0, 0⟩, 0, Layered.zeroTime, Layered.zeroTime⟩
        ⟨⟨2024, 5, 9⟩, 0, 0⟩ = .ok () :=
  ⟨by decide, by decide,
    (Validate_ok_iff_untrimmed_length
      ⟨0, "", ⟨⟨1990, 5, 10⟩, 0, 0⟩, 0, Layered.zeroTime, Layered.zeroTime⟩ ⟨⟨2024, 5, 9⟩, 0, 0⟩).2 rfl,
    (Validate_ok_iff_untrimmed_length
      ⟨0, " a", ⟨⟨1990, 5, 10⟩, 0, 0⟩, 0, Layered.zeroTime, Layered.zeroTime⟩
      ⟨⟨2024, 5, 9⟩, 0, 0⟩).1.mpr
      ⟨by decide, by decide, (validateDOB_iff _ _).mpr (by decide)⟩⟩

/-- The day of the year of a date whose (month, day) comes before that of
another date is at most one more than the other's, whatever the two years. -/
theorem YearDay_le_succ_of_monthDay_lt (a b : Date) (ha : a.Valid) (hb : b.Valid)
    (h : a.month < b.month ∨ (a.month = b.month ∧ a.day < b.day)) :
    a.YearDay ≤ b.YearDay + 1 := by
  obtain ⟨ya, ma, da⟩ := a
  obtain ⟨yb, mb, db⟩ := b
  simp only [Date.Valid, daysIn] at ha hb
  simp only [Date.YearDay]
  obtain ⟨ha1, ha2, ha3, ha4⟩ := ha
  obtain ⟨hb1, hb2, hb3, hb4⟩ := hb
  simp only at h
  generalize isLeap ya = la at ha4 ⊢
  generalize isLeap yb = lb at hb4 ⊢
  rcases h with h | ⟨h, hday⟩
  · have := month_end_le_month_start la ⟨ma, by omega⟩ ⟨mb, by omega⟩ ha1 h
    simp only at this
    cases la <;> cases lb <;>
      simp only [Bool.false_eq_true, and_false, and_true, if_false] at this ha4 hb4 ⊢ <;>
      (try split_ifs at this ha4 hb4 ⊢) <;> omega
  · subst h
    cases la <;> cases lb <;>
      simp only [Bool.false_eq_true, and_false, and_true, if_false] at ha4 hb4 ⊢ <;>
      (try split_ifs at ha4 hb4 ⊢) <;> omega

/-- C18, as the code has it: a person whose 150th birthday is today is rejected.
For the date of birth 1874-05-10 and the current time 2024-05-10 00:00,
`dob ≤ now` and `User.CalculateAge` is 150, yet 54787 days have elapsed, more
than the 54750 days of 150 years of 365 days, and `validateDOB` returns
false; the day before, at age 149, it returns false as well. -/
theorem validateDOB_rejects_150th_birthday :
    (⟨⟨1874, 5, 10⟩, 0, 0⟩ : Time).Valid ∧ (⟨⟨2024, 5, 10⟩, 0, 0⟩ : Time).Valid ∧
    (⟨⟨1874, 5, 10⟩, 0, 0⟩ : Time).abs ≤ (⟨⟨2024, 5, 10⟩, 0, 0⟩ : Time).abs ∧
    User.CalculateAge ⟨1874, 5, 10⟩ ⟨2024, 5, 10⟩ = 150 ∧
    (⟨2024, 5, 10⟩ : Date).dayNumber - (⟨1874, 5, 10⟩ : Date).dayNumber = 54787 ∧
    validateDOB ⟨⟨1874, 5, 10⟩, 0, 0⟩ ⟨⟨2024, 5, 10⟩, 0, 0⟩ = false ∧
    User.CalculateAge ⟨1874, 5, 10⟩ ⟨2024, 5, 9⟩ = 149 ∧
    validateDOB ⟨⟨1874, 5, 10⟩, 0, 0⟩ ⟨⟨2024, 5, 9⟩, 0, 0⟩ = false := by
  refine ⟨by decide, by decide, by decide, by decide, by decide, ?_, by decide, ?_⟩
  · rw [← Bool.not_eq_true, validateDOB_iff]
    decide
  · rw [← Bool.not_eq_true, validateDOB_iff]
    decide

/-- C18, amended: the date-of-birth rule of the layered validator is "not in the
future and at most 150 years of 365 days elapsed". `validateDOB` accepts
exactly when `dob ≤ now` and at most `150 * 365` days lie between them; this
covers every date of birth with `dob ≤ now` and `User.CalculateAge` at most
148. -/
theorem validateDOB_accepts (dob now : Time) (hd : dob.Valid) (hn : now.Valid) :
    (validateDOB dob now = true ↔
      dob.abs ≤ now.abs ∧ now.abs - dob.abs ≤ 150 * 365 * nsPerDay) ∧
    (dob.abs ≤ now.abs → User.CalculateAge dob.date now.date ≤ 148 →
      validateDOB dob now = true) := by
  refine ⟨validateDOB_iff dob now, ?_⟩
  intro hle hage
  rw [validateDOB_iff]
  refine ⟨hle, ?_⟩
  obtain ⟨hdv, hdn, hdo1, hdo2⟩ := hd
  obtain ⟨hnv, hnn, hno1, hno2⟩ := hn
  have hD := YearDay_bounds dob.date hdv
  have hN := YearDay_bounds now.date hnv
  have hdays : now.date.dayNumber - dob.date.dayNumber ≤ 54500 := by
    simp only [User.CalculateAge] at hage
    split at hage
    · rename_i hlt
      have hyd := YearDay_le_succ_of_monthDay_lt now.date dob.date hnv hdv hlt
      simp only [Date.dayNumber, daysBeforeYear]
      split at hN <;> omega
    · simp only [Date.dayNumber, daysBeforeYear]
      split at hN <;> omega
  simp only [Time.abs, nsPerDay, maxZoneOffset] at hdn hnn hdo1 hdo2 hno1 hno2 ⊢
  omega

theorem validateDOB_accepts_witness :
    User.CalculateAge ⟨1875, 5, 11⟩ ⟨2024, 5, 10⟩ = 148 ∧
    ((validateDOB ⟨⟨1875, 5, 11⟩, 0, 0⟩ ⟨⟨2024, 5, 10⟩, 0, 0⟩ = true ↔
      (⟨⟨1875, 5, 11⟩, 0, 0⟩ : Time).abs ≤ (⟨⟨2024, 5, 10⟩, 0, 0⟩ : Time).abs ∧
        (⟨⟨2024, 5, 10⟩, 0, 0⟩ : Time).abs - (⟨⟨1875, 5, 11⟩, 0, 0⟩ : Time).abs
          ≤ 150 * 365 * nsPerDay) ∧
    ((⟨⟨1875, 5, 11⟩, 0, 0⟩ : Time).abs ≤ (⟨⟨2024, 5, 10⟩, 0, 0⟩ : Time).abs →
      User.CalculateAge (⟨⟨1875, 5, 11⟩, 0, 0⟩ : Time).date (⟨⟨2024, 5, 10⟩, 0, 0⟩ : Time).date ≤ 148 →
      validateDOB ⟨⟨1875, 5, 11⟩, 0, 0⟩ ⟨⟨2024, 5, 10⟩, 0, 0⟩ = true)) :=
  ⟨by decide, validateDOB_accepts ⟨⟨1875, 5, 11⟩, 0, 0⟩ ⟨⟨2024, 5, 10⟩, 0, 0⟩ (by decide) (by decide)⟩

/-! ## Claims about the layered handlers -/

/-- C20, as the code has it: the layered handlers answer a validation failure
with 500, not 400. A create request with the empty name, and an update of the
existing user 1 with the empty name, both make the service return the
validation error, and both handlers respond with status 500. -/
theorem handlers_validation_failure_500 :
    (Layered.userService.CreateUser (Layered.userRepository Layered.Store.queries)
        ⟨⟨2024, 5, 9⟩, 0, 0⟩ (Layered.Store.filled 1) ⟨"", ⟨⟨1990, 5, 10⟩, 0, 0⟩⟩).1
      = .error Layered.Error.validation ∧
    (Layered.UserHandler.CreateUser (Layered.userRepository Layered.Store.queries)
        ⟨⟨2024, 5, 9⟩, 0, 0⟩ (Layered.Store.filled 1) (some ⟨"", ⟨⟨1990, 5, 10⟩, 0, 0⟩⟩)).1
      = (500, none) ∧
    (Layered.userService.UpdateUser (Layered.userRepository Layered.Store.queries)
        ⟨⟨2024, 5, 9⟩, 0, 0⟩ (Layered.Store.filled 1) 1 ⟨"", ⟨⟨1990, 5, 10⟩, 0, 0⟩⟩).1
      = .error Layered.Error.validation ∧
    (Layered.UserHandler.UpdateUser (Layered.userRepository Layered.Store.queries)
        ⟨⟨2024, 5, 9⟩, 0, 0⟩ (Layered.Store.filled 1) (some 1)
        (some ⟨"", ⟨⟨1990, 5, 10⟩, 0, 0⟩⟩)).1
      = (500, none) := by
  decide

/-- C20, amended: whenever `userService.CreateUser` or `userService.UpdateUser`
returns the validation error of `User.Validate`, the layered handlers
`CreateUser` and `UpdateUser` respond with status 500 and no user, leaving the
store state the service left. -/
theorem handlers_validation_failure_status :
    (∀ (σ : Type) (repo : Layered.UserRepository σ) (now : Time) (st st1 : σ)
        (req : Layered.CreateUserRequest),
      Layered.userService.CreateUser repo now st req = (.error Layered.Error.validation, st1) →
      Layered.UserHandler.CreateUser repo now st (some req) = ((500, none), st1)) ∧
    (∀ (σ : Type) (repo : Layered.UserRepository σ) (now : Time) (st st1 : σ) (id : Int)
        (req : Layered.UpdateUserRequest),
      Layered.userService.UpdateUser repo now st id req
        = (.error Layered.Error.validation, st1) →
      Layered.UserHandler.UpdateUser repo now st (some id) (some req) = ((500, none), st1)) := by
  constructor
  · intro σ repo now st st1 req h
    simp [Layered.UserHandler.CreateUser, h]
  · intro σ repo now st st1 id req h
    have hid : ¬ id ≤ 0 := by
      intro hid
      simp [Layered.userService.UpdateUser, hid] at h
    simp [Layered.UserHandler.UpdateUser, hid, h]

theorem handlers_validation_failure_status_witness :
    Layered.UserHandler.CreateUser (Layered.userRepository Layered.Store.queries)
        ⟨⟨2024, 5, 9⟩, 0, 0⟩ (Layered.Store.filled 1) (some ⟨"", ⟨⟨1990, 5, 10⟩, 0, 0⟩⟩)
      = ((500, none), Layered.Store.filled 1) ∧
    Layered.UserHandler.UpdateUser (Layered.userRepository Layered.Store.queries)
        ⟨⟨2024, 5, 9⟩, 0, 0⟩ (Layered.Store.filled 1) (some 1)
        (some ⟨"", ⟨⟨1990, 5, 10⟩, 0, 0⟩⟩)
      = ((500, none), Layered.Store.filled 1) :=
  ⟨handlers_validation_failure_status.1 Layered.Store
      (Layered.userRepository Layered.Store.queries) ⟨⟨2024, 5, 9⟩, 0, 0⟩ (Layered.Store.filled 1)
      (Layered.Store.filled 1) ⟨"", ⟨⟨1990, 5, 10⟩, 0, 0⟩⟩ (by decide),
    handlers_validation_failure_status.2 Layered.Store
      (Layered.userRepository Layered.Store.queries) ⟨⟨2024, 5, 9⟩, 0, 0⟩ (Layered.Store.filled 1)
      (Layered.Store.filled 1) 1 ⟨"", ⟨⟨1990, 5, 10⟩, 0, 0⟩⟩ (by decide)⟩

/-! ## The two age calculators in years of the same leap status -/

/-- C21: the day-of-year calculator `calculateAge` and the month/day calculator
`User.CalculateAge` return the same age for every valid date of birth and
valid reference date whose years have the same leap status (both leap years or
both non-leap years). -/
theorem calculateAge_eq_User_CalculateAge_of_isLeap_eq (dob now : Date) (hd : dob.Valid)
    (hn : now.Valid) (hl : isLeap dob.year = isLeap now.year) :
    calculateAge dob now = User.CalculateAge dob now := by
  have h := YearDay_lt_iff_of_isLeap_eq now dob hn hd hl.symm
  simp only [calculateAge, User.CalculateAge]
  by_cases hlt : now.YearDay < dob.YearDay
  · rw [if_pos hlt, if_pos (h.mp hlt)]
  · rw [if_neg hlt, if_neg (fun hc => hlt (h.mpr hc))]

theorem calculateAge_eq_User_CalculateAge_of_isLeap_eq_witness :
    isLeap 1992 = true ∧ isLeap 2024 = true ∧
    calculateAge ⟨1992, 5, 10⟩ ⟨2024, 5, 9⟩ = 31 ∧
    User.CalculateAge ⟨1992, 5, 10⟩ ⟨2024, 5, 9⟩ = 31 ∧
    isLeap 1990 = false ∧ isLeap 2023 = false ∧
    calculateAge ⟨1990, 5, 10⟩ ⟨2023, 5, 10⟩ = 33 ∧
    calculateAge ⟨1992, 5, 10⟩ ⟨2024, 5, 9⟩ = User.CalculateAge ⟨1992, 5, 10⟩ ⟨2024, 5, 9⟩ ∧
    calculateAge ⟨1990, 5, 10⟩ ⟨2023, 5, 10⟩ = User.CalculateAge ⟨1990, 5, 10⟩ ⟨2023, 5, 10⟩ :=
  ⟨by decide, by decide, by decide, by decide, by decide, by decide, by decide,
    calculateAge_eq_User_CalculateAge_of_isLeap_eq ⟨1992, 5, 10⟩ ⟨2024, 5, 9⟩ (by decide)
      (by decide) (by decide),
    calculateAge_eq_User_CalculateAge_of_isLeap_eq ⟨1990, 5, 10⟩ ⟨2023, 5, 10⟩ (by decide)
      (by decide) (by decide)⟩

/-! ## Claims about the root paginated listing -/

/-- The call root `UserService.GetUsersPaginated` makes to the repository: the
limit as given and the `int` offset. -/
theorem Root.GetUsersPaginated_eq {σ : Type} (pq : Root.PageQueries σ) (now : Date) (st : σ)
    (page limit : Int) :
    Root.UserService.GetUsersPaginated pq now st page limit
      = match Root.UserRepository.GetPaginated pq st limit
          (Root.UserService.paginatedOffset page limit) with
        | .error err => some (.error err)
        | .ok users =>
          match Root.UserRepository.Count pq st with
          | .error err => some (.error err)
          | .ok total =>
            if limit = 0 then none
            else
              some (.ok { Data := users.map fun u =>
                            { ID := u.ID, Name := u.Name, DOB := u.DOB.Format,
                              Age := some (calculateAge u.DOB now) },
                          Total := total, Page := page, Limit := limit,
                          TotalPages :=
                            goDiv (toInt64 (toInt64 (toInt64 total + limit) - 1)) limit }) := by
  rfl

/-- C22: the offset of requests the root handler lets through. The parameters
`page = 9223372036854775807`, `limit = 100` pass the handler's validation;
`(page - 1) * limit` does not fit in an `int` and the offset the service
computes is `-200`, not a non-negative number. The parameters
`page = 21474838`, `limit = 100` pass it too; the service computes the offset
`2147483700` and `UserRepository.GetPaginated` passes `int32(offset)`, which is
`-2147483596`, to the query. In both cases a database that refuses a negative
offset makes the handler answer 500. -/
theorem GetUsersPaginated_offset_negative :
    (⟨9223372036854775807, 100⟩ : Root.PaginationParams).validate = true ∧
    Root.UserService.paginatedOffset 9223372036854775807 100 = -200 ∧
    Root.toInt32 (Root.UserService.paginatedOffset 9223372036854775807 100) = -200 ∧
    Root.UserHandler.GetUsersPaginated
        (⟨fun _ _ offset => if offset < 0 then .error Root.Error.db else .ok [],
          fun _ => .ok 25⟩ : Root.PageQueries Unit)
        ⟨2024, 5, 9⟩ () (some ⟨9223372036854775807, 100⟩)
      = some (500, none) ∧
    (⟨21474838, 100⟩ : Root.PaginationParams).validate = true ∧
    Root.UserService.paginatedOffset 21474838 100 = 2147483700 ∧
    Root.toInt32 (Root.UserService.paginatedOffset 21474838 100) = -2147483596 ∧
    Root.UserHandler.GetUsersPaginated
        (⟨fun _ _ offset => if offset < 0 then .error Root.Error.db else .ok [],
          fun _ => .ok 25⟩ : Root.PageQueries Unit)
        ⟨2024, 5, 9⟩ () (some ⟨21474838, 100⟩)
      = some (500, none) := by
  decide

/-- The total-pages division of the root `UserService.GetUsersPaginated` on the
requests the root handler lets through. Every `PaginationParams` accepted by
the handler's validation has `page ≥ 1` and `1 ≤ limit ≤ 100`, so for every
database the service returns (an error of the database, or a response with the
page and limit as given) and the handler answers without a division by zero;
the offset the service computes is `(page - 1) * limit` and non-negative
whenever that product fits in an `int`. The service itself performs no
clamping: with `limit = 0` and a database that answers, it divides by zero. -/
theorem GetUsersPaginated_no_division_by_zero :
    (∀ (σ : Type) (pq : Root.PageQueries σ) (now : Date) (st : σ)
        (params : Root.PaginationParams), params.validate = true →
      (1 ≤ params.Page ∧ 1 ≤ params.Limit ∧ params.Limit ≤ 100) ∧
      (∃ res, Root.UserService.GetUsersPaginated pq now st params.Page params.Limit
          = some res ∧
        ∀ r, res = .ok r → r.Page = params.Page ∧ r.Limit = params.Limit) ∧
      (∃ out, Root.UserHandler.GetUsersPaginated pq now st (some params) = some out) ∧
      ((params.Page - 1) * params.Limit < 9223372036854775808 →
        Root.UserService.paginatedOffset params.Page params.Limit
          = (params.Page - 1) * params.Limit ∧
        0 ≤ Root.UserService.paginatedOffset params.Page params.Limit)) ∧
    (∀ (σ : Type) (pq : Root.PageQueries σ) (now : Date) (st : σ) (page : Int)
        (users : List Root.User) (total : Int),
      Root.UserRepository.GetPaginated pq st 0 (Root.UserService.paginatedOffset page 0)
        = .ok users →
      Root.UserRepository.Count pq st = .ok total →
      Root.UserService.GetUsersPaginated pq now st page 0 = none) := by
  constructor
  · intro σ pq now st params hv
    simp only [Root.PaginationParams.validate, Bool.and_eq_true, decide_eq_true_eq] at hv
    obtain ⟨⟨hp, hl1⟩, hl2⟩ := hv
    have hl0 : params.Limit ≠ 0 := by omega
    have hsvc : ∃ res, Root.UserService.GetUsersPaginated pq now st params.Page params.Limit
          = some res ∧
        ∀ r, res = .ok r → r.Page = params.Page ∧ r.Limit = params.Limit := by
      rw [Root.GetUsersPaginated_eq]
      cases hg : Root.UserRepository.GetPaginated pq st params.Limit
          (Root.UserService.paginatedOffset params.Page params.Limit) with
      | error e => exact ⟨.error e, rfl, fun r hr => by cases hr⟩
      | ok users =>
        cases hc : Root.UserRepository.Count pq st with
        | error e => exact ⟨.error e, rfl, fun r hr => by cases hr⟩
        | ok total =>
          simp only [hl0, if_false]
          refine ⟨_, rfl, ?_⟩
          intro r hr
          injection hr with hr
          subst hr
          exact ⟨rfl, rfl⟩
    refine ⟨⟨hp, hl1, hl2⟩, hsvc, ?_, ?_⟩
    · obtain ⟨res, hres, _⟩ := hsvc
      have hv2 : params.validate = true := by
        simp [Root.PaginationParams.validate, hp, hl1, hl2]
      cases res with
      | error e => exact ⟨(500, none), by simp [Root.UserHandler.GetUsersPaginated, hv2, hres]⟩
      | ok r => exact ⟨(200, some r), by simp [Root.UserHandler.GetUsersPaginated, hv2, hres]⟩
    · intro hfit
      have h0 : 0 ≤ params.Page - 1 := by omega
      have hmul : 0 ≤ (params.Page - 1) * params.Limit := Int.mul_nonneg h0 (by omega)
      have hle : params.Page - 1 ≤ (params.Page - 1) * params.Limit :=
        le_mul_of_one_le_right h0 hl1
      have e1 : toInt64 (params.Page - 1) = params.Page - 1 :=
        toInt64_of_range _ (by omega) (by omega)
      have e2 : toInt64 ((params.Page - 1) * params.Limit) = (params.Page - 1) * params.Limit :=
        toInt64_of_range _ (by omega) hfit
      unfold Root.UserService.paginatedOffset
      rw [e1, e2]
      exact ⟨rfl, hmul⟩
  · intro σ pq now st page users total hg hc
    rw [Root.GetUsersPaginated_eq, hg, hc]
    simp

theorem GetUsersPaginated_no_division_by_zero_witness :
    (Root.UserHandler.GetUsersPaginated
        (⟨fun _ _ _ => .ok [], fun _ => .ok 25⟩ : Root.PageQueries Unit) ⟨2024, 5, 9⟩ ()
        (some ⟨3, 10⟩)).map (fun out => (out.1, out.2.map fun r => (r.Total, r.TotalPages)))
      = some (200, some (25, 3)) ∧
    Root.UserService.paginatedOffset 3 10 = 20 ∧
    (∃ out, Root.UserHandler.GetUsersPaginated
        (⟨fun _ _ _ => .ok [], fun _ => .ok 25⟩ : Root.PageQueries Unit) ⟨2024, 5, 9⟩ ()
        (some ⟨3, 10⟩) = some out) ∧
    Root.UserService.GetUsersPaginated
        (⟨fun _ _ _ => .ok [], fun _ => .ok 25⟩ : Root.PageQueries Unit) ⟨2024, 5, 9⟩ () 3 0
      = none :=
  ⟨by decide, by decide,
    (GetUsersPaginated_no_division_by_zero.1 Unit ⟨fun _ _ _ => .ok [], fun _ => .ok 25⟩
      ⟨2024, 5, 9⟩ () ⟨3, 10⟩ (by decide)).2.2.1,
    GetUsersPaginated_no_division_by_zero.2 Unit ⟨fun _ _ _ => .ok [], fun _ => .ok 25⟩
      ⟨2024, 5, 9⟩ () 3 [] 25 (by decide) (by decide)⟩

end GoBackend
